import Mathlib

/-!
Verification of the git-sweep-pro extension core.

This file gives a shallow embedding, in Lean, of the pure logic of the
git-sweep-pro repository: the `git branch -vv` / `git branch -a` output
parsers (`sweep-logic.ts`, `branch-list.ts`), the command runner
(`git-command.ts`), the stale-branch sweep workflow (`sweep-workflow.ts`)
and the Sync-With-Upstream workflow engine
(`sync-with-upstream-workflow.ts`, `sync-with-upstream-state.ts`).

External collaborators (process execution, the editor UI, the key-value
workspace state and the filesystem probes) are modelled as an explicit
environment record; each workflow run is embedded as a function from
that environment to a log of the git commands issued, the output lines
appended, the user messages shown, and the memento writes performed.

JavaScript string primitives (`trim`, `split`, `includes`, regexes used
by the source) are modelled over `List Char`; `\s` is modelled as ASCII
whitespace.
-/

namespace GitSweepPro

/-! ## JavaScript string primitives -/

/-- Model of the JS `\s` character class and of the whitespace trimmed by
`String.prototype.trim`, restricted to its ASCII part. -/
def isJsWs (c : Char) : Bool :=
  c == ' ' || c == '\t' || c == '\n' || c == '\r' || c == '\x0b' || c == '\x0c'

/-- Model of `s.trim()` over a character list. -/
def jsTrimL (l : List Char) : List Char :=
  ((l.dropWhile isJsWs).reverse.dropWhile isJsWs).reverse

/-- Model of `s.trim()` on strings. -/
def jsTrim (s : String) : String := String.mk (jsTrimL s.toList)

/-- Model of `s.includes(pat)` for a non-empty pattern: `true` iff `pat`
occurs as a contiguous substring. -/
def seqContains (pat : List Char) : List Char → Bool
  | [] => pat.isPrefixOf []
  | c :: tl => pat.isPrefixOf (c :: tl) || seqContains pat tl

/-- Model of `s.includes(pat)` on strings. -/
def jsIncludes (s pat : String) : Bool := seqContains pat.toList s.toList

/-- Model of `s.startsWith(p)` on strings. -/
def jsStartsWith (s p : String) : Bool := p.toList.isPrefixOf s.toList

/-- Model of `s.split('\n')` (split on a single separator character,
keeping empty parts). -/
def splitLines (s : String) : List String :=
  (s.toList.splitOn '\n').map String.mk

/-- Model of `line.replace(/^\*\s+/, '')`: remove a leading `*` together
with the (non-empty, maximal) run of whitespace that follows it. -/
def stripStarMarker : List Char → List Char
  | '*' :: c :: rest => if isJsWs c then (c :: rest).dropWhile isJsWs else '*' :: c :: rest
  | l => l

/-- Model of `s.split(/\s+/)[0]`: the empty string when `s` starts with
whitespace (JS yields a leading empty field), otherwise the maximal
leading run of non-whitespace characters. -/
def firstWsField : List Char → List Char
  | [] => []
  | c :: rest => if isJsWs c then [] else (c :: rest).takeWhile (fun d => !isJsWs d)

/-! ## `sweep-logic.ts` : `parseGoneBranches` -/

/-- The literal substring `": gone]"` that `parseGoneBranches` looks for. -/
def goneMark : List Char := [':', ' ', 'g', 'o', 'n', 'e', ']']

/-- Embedding of `parseGoneBranches` (`sweep-logic.ts`, in
`src/unnamed/part_000`), over character lists:
split on newlines, trim every line, keep the lines containing `": gone]"`,
strip the current-branch `*` marker, take the first whitespace-separated
field, and drop names starting with `[` as well as empty names. -/
def parseGoneBranchesL (outp : List Char) : List (List Char) :=
  (((((outp.splitOn '\n').map jsTrimL).filter
      (fun line => seqContains goneMark line)).map
      (fun line => firstWsField (stripStarMarker line))).filter
      (fun name => !(['['].isPrefixOf name))).filter
      (fun name => name.length > 0)

/-- Embedding of `parseGoneBranches` on strings. -/
def parseGoneBranches (s : String) : List String :=
  (parseGoneBranchesL s.toList).map String.mk

example : parseGoneBranches "* a 1 [origin/a: gone] x\n  b 1 [origin/b: ahead 1] y" = ["a"] := by
  decide

example : parseGoneBranches "" = [] := by decide

/-! ## `git-command.ts` : the command runner

The process-execution collaborator is modelled as a function from an
`ExecCall` — a binary name, an argument vector and a working directory —
to an outcome.  The collaborator interface itself takes an argument
vector (as `execFile` does); there is no shell-interpreted command
string anywhere in the embedding, mirroring the source. -/

/-- One invocation of the process-execution collaborator: `execFn(file,
args, { cwd })`. -/
structure ExecCall where
  binary : String
  args : List String
  cwd : String
deriving DecidableEq

/-- Captured output of a successful git subprocess. -/
structure CommandResult where
  stdout : String
  stderr : String
deriving DecidableEq

/-- Outcome of a subprocess invocation: success with captured output, or
failure with an error message plus any partial stdout/stderr captured by
the error object. -/
inductive ExecOutcome
  | ok : CommandResult → ExecOutcome
  | err : (message : String) → (stdout : String) → (stderr : String) → ExecOutcome
deriving DecidableEq

/-- Embedding of `escapeForShell` (`git-command.ts`): wrap in single
quotes, turning each inner `'` into `'\''`.  Used only to render a
command line for display. -/
def escapeForShell (s : String) : String :=
  "'" ++ String.mk (s.toList.flatMap
    (fun c => if c == '\'' then ['\'', '\\', '\'', '\''] else [c])) ++ "'"

/-- Embedding of `buildDisplayCmd` (`git-command.ts`): the user-facing
rendering of the command, quoting arguments containing whitespace or a
single quote. -/
def buildDisplayCmd (args : List String) : String :=
  if args = [] then "git"
  else
    "git " ++ String.intercalate " "
      (args.map (fun a =>
        if a.toList.any (fun c => isJsWs c || c == '\'') then escapeForShell a else a))

/-- Log produced by one `runGitCommand` call: the process invocations it
performed and the output-channel lines it appended. -/
structure RunnerLog where
  calls : List ExecCall
  lines : List String
deriving DecidableEq

/-- Embedding of `runGitCommand` (`git-command.ts`): log the rendered
command, invoke the collaborator with binary `git`, the unchanged
argument vector and the working directory, log trimmed stdout/stderr
(also on failure, together with an `[error]` line), and return the
result or re-throw the error. -/
def runGitCommand (args : List String) (cwd : String)
    (execFn : ExecCall → ExecOutcome) : RunnerLog × Except String CommandResult :=
  let displayLine := "$ " ++ buildDisplayCmd args
  let call : ExecCall := ⟨"git", args, cwd⟩
  match execFn call with
  | .ok r =>
      (⟨[call],
        [displayLine]
          ++ (if jsTrim r.stdout ≠ "" then [jsTrim r.stdout] else [])
          ++ (if jsTrim r.stderr ≠ "" then ["[stderr] " ++ jsTrim r.stderr] else [])⟩,
       .ok ⟨r.stdout, r.stderr⟩)
  | .err message so se =>
      (⟨[call],
        [displayLine]
          ++ (if jsTrim so ≠ "" then [jsTrim so] else [])
          ++ (if jsTrim se ≠ "" then ["[stderr] " ++ jsTrim se] else [])
          ++ ["[error] " ++ message]⟩,
       .error message)

/-! ## `sweep-workflow.ts` (the variant in `src/unnamed/part_000`) -/

/-- Sweep execution mode (`sweep-logic.ts`). -/
structure SweepMode where
  dryRun : Bool
  forceDelete : Bool
deriving DecidableEq

/-- A quick-pick item as built by the workflows: a label and whether it
is pre-checked. -/
structure QuickItem where
  label : String
  picked : Bool
deriving DecidableEq

/-- Result of a quick-pick interaction: cancellation (`undefined`), a
single item, or an item array. -/
inductive PickResult
  | cancelled
  | one : QuickItem → PickResult
  | many : List QuickItem → PickResult
deriving DecidableEq

/-- Embedding of `normalizeQuickPickSelection` (`sweep-workflow.ts`). -/
def normalizeQuickPickSelection : PickResult → List QuickItem
  | .cancelled => []
  | .many l => l
  | .one i => [i]

/-- Minimal model of `JSON.stringify` on branch-name strings: wrap in
double quotes, escaping `"` and `\`.  (Control-character escapes are not
modelled; they cannot occur in git ref names.) -/
def jsonStringify (s : String) : String :=
  "\"" ++ String.mk (s.toList.flatMap
    (fun c => if c == '"' || c == '\\' then ['\\', c] else [c])) ++ "\""

/-- Environment of the sweep workflow variant in `src/unnamed/part_000`:
its `runGitCommand` dependency takes a full command string. -/
structure SweepEnv where
  workspaceRoot? : Option String
  git : String → ExecOutcome
  pick : List QuickItem → PickResult

/-- Log of one sweep run: command strings passed to the git runner,
output-channel lines, information messages and error messages shown. -/
structure SweepLog where
  gitCalls : List String := []
  output : List String := []
  infos : List String := []
  errors : List String := []
deriving DecidableEq

/-- Runs one git command string in the sweep workflow: records it and
returns its outcome. -/
def sweepGit (env : SweepEnv) (w : SweepLog) (cmd : String) : SweepLog × ExecOutcome :=
  ({ w with gitCalls := w.gitCalls ++ [cmd] }, env.git cmd)

/-- Appends an output line. -/
def SweepLog.out (w : SweepLog) (line : String) : SweepLog :=
  { w with output := w.output ++ [line] }

/-- Shows an information message. -/
def SweepLog.info (w : SweepLog) (m : String) : SweepLog :=
  { w with infos := w.infos ++ [m] }

/-- Shows an error message. -/
def SweepLog.err (w : SweepLog) (m : String) : SweepLog :=
  { w with errors := w.errors ++ [m] }

/-- The delete loop of `runSweepWorkflow`: deletes each selected branch
individually, counting successes and logging a `[delete-failed]` line
per failure without aborting the remaining deletions. -/
def sweepDeleteLoop (env : SweepEnv) (deleteFlag : String) :
    List String → SweepLog → Nat → SweepLog × Nat
  | [], w, count => (w, count)
  | b :: rest, w, count =>
      let cmd := "git branch " ++ deleteFlag ++ " " ++ jsonStringify b
      let (w1, o) := sweepGit env w cmd
      match o with
      | .ok _ => sweepDeleteLoop env deleteFlag rest w1 (count + 1)
      | .err m _ _ =>
          sweepDeleteLoop env deleteFlag rest
            (w1.out ("[delete-failed] " ++ b ++ ": " ++ m)) count

/-- Body of the `try` block of `runSweepWorkflow`; returns the log and
the thrown error message, if any. -/
def sweepBody (mode : SweepMode) (env : SweepEnv) (w : SweepLog) :
    SweepLog × Option String :=
  let (w, fetchOut) := sweepGit env w "git fetch -p"
  match fetchOut with
  | .err m _ _ => (w, some m)
  | .ok _ =>
    let (w, branchOut) := sweepGit env w "git branch -vv"
    match branchOut with
    | .err m _ _ => (w, some m)
    | .ok branchResult =>
      let goneBranches := parseGoneBranches branchResult.stdout
      if goneBranches = [] then
        ((w.out "No stale tracked branches found.").info
          "Git Sweep Pro: No stale branches found.", none)
      else
        let quickPickItems := goneBranches.map (fun b => QuickItem.mk b true)
        let selectedItems := normalizeQuickPickSelection (env.pick quickPickItems)
        if selectedItems = [] then
          ((w.out "Operation cancelled or no branches selected.").info
            "Git Sweep Pro: No branches selected.", none)
        else
          let branchNames := selectedItems.map (·.label)
          let w := w.out ((if mode.dryRun then "[DRY RUN]" else "[DELETE]") ++ " Selected branches:")
          let w := branchNames.foldl (fun acc b => acc.out ("- " ++ b)) w
          if mode.dryRun then
            (w.info ("Git Sweep Pro (dry run): " ++ toString branchNames.length
              ++ " branch(es) would be deleted."), none)
          else
            let deleteFlag := if mode.forceDelete then "-D" else "-d"
            let (w, deletedCount) := sweepDeleteLoop env deleteFlag branchNames w 0
            if deletedCount = branchNames.length then
              (w.info ("Git Sweep Pro: Deleted " ++ toString deletedCount ++ " branch(es)."), none)
            else
              (w.err ("Git Sweep Pro: Deleted " ++ toString deletedCount ++ "/"
                ++ toString branchNames.length
                ++ " branch(es). See \"Git Sweep\" output for details."), none)

/-- Embedding of `runSweepWorkflow` (`src/unnamed/part_000`): header
lines, the `try` body, the `catch` classification of thrown errors and
the `finally` session-ended line. -/
def runSweepWorkflow (mode : SweepMode) (env : SweepEnv) : SweepLog :=
  match env.workspaceRoot? with
  | none => { errors := ["Git Sweep Pro: No workspace folder is open."] }
  | some workspaceRoot =>
    let w : SweepLog := {}
    let w := (w.out "--- Git Sweep session started ---").out ("Workspace: " ++ workspaceRoot)
    let w := w.out ("Mode: " ++ (if mode.dryRun then "dry-run" else "delete")
      ++ ", delete flag: " ++ (if mode.forceDelete then "-D" else "-d"))
    let (w, thrown) := sweepBody mode env w
    let w :=
      match thrown with
      | none => w
      | some message =>
        let lowerMessage := message.toLower
        if jsIncludes lowerMessage "not a git repository" then
          w.err "Git Sweep Pro: The selected workspace folder is not a Git repository."
        else if jsIncludes lowerMessage "command not found" || jsIncludes lowerMessage "enoent" then
          w.err "Git Sweep Pro: Git is not installed or not available in PATH."
        else
          w.err ("Git Sweep Pro failed: " ++ message)
    w.out "--- Git Sweep session ended ---"

/-! ## Claim C2: the command runner passes the argument vector through -/

/-- C2.  For every argument list and working directory, `runGitCommand`
invokes the process-execution collaborator exactly once, with binary
`git`, exactly the given argument vector (unchanged) and the given
working directory — on success and on failure alike.  The collaborator
interface (`ExecCall`) takes an argument vector, never a
shell-interpreted command string, so argument contents (for example
branch names with shell metacharacters) cannot alter the command
executed. -/
theorem runGitCommand_invokes_git_with_exact_argv
    (args : List String) (cwd : String) (execFn : ExecCall → ExecOutcome) :
    (runGitCommand args cwd execFn).1.calls = [ExecCall.mk "git" args cwd] := by
  cases h : execFn (ExecCall.mk "git" args cwd) <;>
    simp only [runGitCommand, h]

/-! ## Claim C9: dry-run sweep issues no delete commands -/

/-- Helper: appending per-branch `- <name>` output lines touches only the
output field of the log. -/
theorem sweepOutFold_fields (bs : List String) (w : SweepLog) :
    (bs.foldl (fun acc b => acc.out ("- " ++ b)) w).gitCalls = w.gitCalls ∧
    (bs.foldl (fun acc b => acc.out ("- " ++ b)) w).infos = w.infos ∧
    (bs.foldl (fun acc b => acc.out ("- " ++ b)) w).errors = w.errors := by
  induction bs generalizing w with
  | nil => exact ⟨rfl, rfl, rfl⟩
  | cons b rest ih => simpa [SweepLog.out] using ih ((w.out ("- " ++ b)))

/-- C9.  In the sweep workflow with dry-run mode, for every non-empty
selection of gone branches, the only git commands issued are the fetch
and the branch listing — no branch-delete command — and the single
reported information message states exactly the number of selected
branches that would be deleted. -/
theorem sweep_dryRun_issues_no_deletes
    (mode : SweepMode) (env : SweepEnv) (wr : String) (fr br : CommandResult)
    (hdry : mode.dryRun = true)
    (hwr : env.workspaceRoot? = some wr)
    (hfetch : env.git "git fetch -p" = .ok fr)
    (hvv : env.git "git branch -vv" = .ok br)
    (hgone : parseGoneBranches br.stdout ≠ [])
    (hsel : normalizeQuickPickSelection
      (env.pick ((parseGoneBranches br.stdout).map (fun b => QuickItem.mk b true))) ≠ []) :
    (runSweepWorkflow mode env).gitCalls = ["git fetch -p", "git branch -vv"] ∧
    (runSweepWorkflow mode env).infos =
      ["Git Sweep Pro (dry run): "
        ++ toString (normalizeQuickPickSelection
            (env.pick ((parseGoneBranches br.stdout).map (fun b => QuickItem.mk b true)))).length
        ++ " branch(es) would be deleted."] := by
  have hfold := sweepOutFold_fields
    ((normalizeQuickPickSelection
      (env.pick ((parseGoneBranches br.stdout).map (fun b => QuickItem.mk b true)))).map
        (·.label))
  unfold runSweepWorkflow sweepBody sweepGit
  simp only [hwr, hfetch, hvv, hdry, if_neg hgone, if_neg hsel, if_true, ite_true]
  refine ⟨?_, ?_⟩
  · simp only [SweepLog.info]
    rw [(hfold _).1]
    rfl
  · simp only [SweepLog.info]
    rw [(hfold _).2.1]
    simp [SweepLog.out, SweepLog.info, List.length_map]

/-- Concrete environment used by the C9 witness: two gone branches, both
selected, every git command succeeding. -/
def sweepWitnessEnv : SweepEnv where
  workspaceRoot? := some "/repo"
  git := fun cmd =>
    if cmd = "git branch -vv" then
      .ok ⟨"  stale/one 123 [origin/stale/one: gone] msg\n  stale/two 456 [origin/stale/two: gone] msg", ""⟩
    else .ok ⟨"", ""⟩
  pick := fun items => .many items

/-- Witness for C9 at a concrete two-branch environment. -/
theorem sweep_dryRun_issues_no_deletes_witness :
    (runSweepWorkflow ⟨true, false⟩ sweepWitnessEnv).gitCalls
        = ["git fetch -p", "git branch -vv"] ∧
    (runSweepWorkflow ⟨true, false⟩ sweepWitnessEnv).infos
        = ["Git Sweep Pro (dry run): 2 branch(es) would be deleted."] := by
  have h := sweep_dryRun_issues_no_deletes ⟨true, false⟩ sweepWitnessEnv "/repo"
    ⟨"", ""⟩
    ⟨"  stale/one 123 [origin/stale/one: gone] msg\n  stale/two 456 [origin/stale/two: gone] msg", ""⟩
    rfl rfl rfl rfl (by decide) (by decide)
  exact ⟨h.1, h.2⟩

/-! ## JS helpers used by the sync workflow -/

/-- Model of `s.indexOf(c)` for a single character: the index of the
first occurrence, or `-1`. -/
def jsIndexOfChar (s : String) (c : Char) : Int :=
  match s.toList.findIdx? (· == c) with
  | some i => (i : Int)
  | none => -1

/-- Normalisation of a JS `slice` index: negative indices count from the
end; the result is clamped to `[0, len]`. -/
def jsNormIdx (len : Nat) (i : Int) : Nat :=
  if i < 0 then ((len : Int) + i).toNat else min i.toNat len

/-- Model of `s.slice(a, b)`. -/
def jsSlice (s : String) (a b : Int) : String :=
  let l := s.toList
  String.mk ((l.take (jsNormIdx l.length b)).drop (jsNormIdx l.length a))

/-- Model of `s.slice(a)` (slice to the end of the string). -/
def jsSliceFrom (s : String) (a : Int) : String :=
  jsSlice s a (s.toList.length : Int)

/-! ## `branch-list.ts` : `parseBranches` (`src/unnamed/part_002`) -/

/-- A structured branch record parsed from `git branch -a` output. -/
structure BranchItem where
  label : String
  ref : String
  isRemote : Bool
deriving DecidableEq

/-- Embedding of `parseBranches` (`branch-list.ts`): split on newlines,
trim, drop empty lines and detached-HEAD `(...)` lines; skip the literal
`HEAD` name and symbolic `remotes/*/HEAD`/`->` pointers; strip the
`remotes/` prefix from remote branches; exclude the current branch
(starting with `*`) from the local candidates. -/
def parseBranches (s : String) : List BranchItem :=
  let lines := ((s.toList.splitOn '\n').map jsTrimL).filter
    (fun l => l.length > 0 && !(['('].isPrefixOf l))
  lines.filterMap (fun line =>
    let isCurrent := ['*'].isPrefixOf line
    let name := jsTrimL (stripStarMarker line)
    if name = [] ∨ name = ['H', 'E', 'A', 'D'] then none
    else if ['r', 'e', 'm', 'o', 't', 'e', 's', '/'].isPrefixOf name then
      let shortName := name.drop 8
      if ['/', 'H', 'E', 'A', 'D'].isSuffixOf shortName
          || seqContains [' ', '-', '>', ' '] shortName then none
      else some ⟨String.mk shortName, String.mk shortName, true⟩
    else if !isCurrent then some ⟨String.mk name, String.mk name, false⟩
    else none)

example :
    parseBranches "* main\n  dev\n  remotes/origin/HEAD -> origin/main\n  remotes/origin/main"
      = [⟨"dev", "dev", false⟩, ⟨"origin/main", "origin/main", true⟩] := by
  decide

/-! ## `sync-with-upstream-state.ts` -/

/-- The persisted resumption state (`SyncMemento`). -/
structure SyncMemento where
  workspaceRoot : String
  featureBranch : String
  hasStash : Bool
  upstreamRef : String
  tempBranchToCleanup : Option String := none
deriving DecidableEq

/-- The fixed storage key of the singleton memento. -/
def MEMENTO_KEY : String := "git-sweep-pro.syncWithUpstream.memento"

/-- The temporary-branch name prefix. -/
def TEMP_BRANCH_PREFIX : String := "__gsp_sync_"

/-- A quick-pick item as built by the sync workflow (label, optional
description, pre-checked flag). -/
structure SyncQuickItem where
  label : String
  description : Option String
  picked : Bool
deriving DecidableEq

/-- Result of the sync workflow quick pick. -/
inductive SyncPickResult
  | cancelled
  | one : SyncQuickItem → SyncPickResult
  | many : List SyncQuickItem → SyncPickResult
deriving DecidableEq

/-- Environment of the sync workflow: the workspace resolver, the
array-argument git runner, the selection UI, the filesystem probes and
the persisted memento slot (the single `MEMENTO_KEY` entry of the
workspace state). -/
structure SyncEnv where
  workspaceRoot? : Option String
  git : List String → ExecOutcome
  pick : List SyncQuickItem → SyncPickResult
  fileExists : String → Bool
  readFileUtf8 : String → String
  memento? : Option SyncMemento

/-- Log of one sync/resume run: argument vectors passed to the git
runner, output lines, info/error messages, and the sequence of writes to
the memento slot (`some` for `saveMemento`, `none` for `clearMemento`). -/
structure SyncLog where
  gitCalls : List (List String) := []
  output : List String := []
  infos : List String := []
  errors : List String := []
  mementoWrites : List (Option SyncMemento) := []
deriving DecidableEq

/-- Runs one git command in the sync workflow: records the argument
vector and returns the outcome. -/
def syncGit (env : SyncEnv) (w : SyncLog) (args : List String) : SyncLog × ExecOutcome :=
  ({ w with gitCalls := w.gitCalls ++ [args] }, env.git args)

/-- Appends an output-channel line. -/
def SyncLog.out (w : SyncLog) (line : String) : SyncLog :=
  { w with output := w.output ++ [line] }

/-- Shows an information message. -/
def SyncLog.info (w : SyncLog) (m : String) : SyncLog :=
  { w with infos := w.infos ++ [m] }

/-- Shows an error message. -/
def SyncLog.err (w : SyncLog) (m : String) : SyncLog :=
  { w with errors := w.errors ++ [m] }

/-- Embedding of `saveMemento`: one write of `some m` to the slot. -/
def SyncLog.saveMem (w : SyncLog) (m : SyncMemento) : SyncLog :=
  { w with mementoWrites := w.mementoWrites ++ [some m] }

/-- Embedding of `clearMemento`: one write of `none` to the slot. -/
def SyncLog.clearMem (w : SyncLog) : SyncLog :=
  { w with mementoWrites := w.mementoWrites ++ [none] }

/-- The memento slot contents after a run: the last write if any,
otherwise the initial contents. -/
def SyncLog.finalMemento (w : SyncLog) (initial : Option SyncMemento) : Option SyncMemento :=
  match w.mementoWrites.getLast? with
  | some v => v
  | none => initial

/-- Model of `path.join(a, b)` for the relative components used here. -/
def pathJoin (a b : String) : String := a ++ "/" ++ b

/-- Embedding of `isRebaseInProgress` (`sync-with-upstream-state.ts`):
either of git's on-disk `rebase-merge` / `rebase-apply` markers exists. -/
def isRebaseInProgress (gitDir : String) (env : SyncEnv) : Bool :=
  env.fileExists (pathJoin gitDir "rebase-merge")
    || env.fileExists (pathJoin gitDir "rebase-apply")

/-- Strips a leading `refs/heads/` (the `replace(/^refs\/heads\//, '')`
of the source). -/
def stripRefsHeads (c : String) : String :=
  if jsStartsWith c "refs/heads/" then String.mk (c.toList.drop 11) else c

/-- Embedding of `readRebaseHeadName` (`sync-with-upstream-state.ts`):
read the first existing `head-name` file under `rebase-merge` /
`rebase-apply`, trim it and strip a `refs/heads/` prefix.  The
filesystem read is modelled as total, as in the dependency interface. -/
def readRebaseHeadName (gitDir : String) (env : SyncEnv) : Option String :=
  let p1 := pathJoin (pathJoin gitDir "rebase-merge") "head-name"
  let p2 := pathJoin (pathJoin gitDir "rebase-apply") "head-name"
  if env.fileExists p1 then some (stripRefsHeads (jsTrim (env.readFileUtf8 p1)))
  else if env.fileExists p2 then some (stripRefsHeads (jsTrim (env.readFileUtf8 p2)))
  else none

/-- Embedding of `resolveGitDir`: run `git rev-parse --absolute-git-dir`,
trim, and treat failure or empty output as "not a git repository". -/
def resolveGitDir (env : SyncEnv) (w : SyncLog) : SyncLog × Option String :=
  let (w, o) := syncGit env w ["rev-parse", "--absolute-git-dir"]
  match o with
  | .ok r => (w, if jsTrim r.stdout = "" then none else some (jsTrim r.stdout))
  | .err _ _ _ => (w, none)

/-! ## `sync-with-upstream-messages.ts`

The user-visible strings.  Five constants referenced by the workflow are
absent from the `sync-with-upstream-messages.ts` present in the source
tree (it is a stale sibling of the workflow file); those five are
modelled from the spec and marked as such; the claims never depend on
their exact text. -/

namespace syncMessages

def prefixStr : String := "Git Sweep Pro:"

def noWorkspace : String := prefixStr ++ " No workspace folder is open."

def notGitRepo : String := prefixStr ++ " The selected workspace folder is not a Git repository."

def gitNotInstalled : String := prefixStr ++ " Git is not installed or not available in PATH."

def errorGeneric (msg : String) : String := prefixStr ++ " " ++ msg

def couldNotDetermineBranch : String :=
  prefixStr ++ " Could not determine current branch (detached HEAD?)."

def noBranchesForSync : String := prefixStr ++ " No other branches available for sync."

def operationCancelled : String := "Operation cancelled."

def rebaseConflicts : String :=
  prefixStr ++ " Rebase conflicts. Resolve them, then run \"Sync With Upstream (Resume)\" to continue."

def pushFailed (msg : String) : String := prefixStr ++ " Push failed: " ++ msg

def rebaseOkStashFailed : String :=
  prefixStr ++ " Rebase succeeded but stash pop failed. Use \"git stash pop\" manually."

def stashPopFailed : String :=
  prefixStr ++ " Stash could not be recovered. Use \"git stash pop\" manually."

def syncedWith (branch upstream : String) : String :=
  prefixStr ++ " " ++ branch ++ " synced with " ++ upstream ++ "."

def syncedSuccess (branch : String) : String :=
  prefixStr ++ " " ++ branch ++ " synced successfully."

def noRebaseNothingToResume : String :=
  prefixStr ++ " No rebase in progress and no saved state. Nothing to resume."

def rebaseInOtherWorkspace : String :=
  prefixStr ++ " A rebase is in progress in another workspace. Open the correct folder."

def couldNotDetermineRebaseBranch : String :=
  prefixStr ++ " Could not determine branch for in-progress rebase."

def remainingConflicts : String :=
  prefixStr ++ " Conflicts remain. Resolve them and run \"Sync With Upstream (Resume)\" again."

def rebaseOkPushFailed (msg : String) : String :=
  prefixStr ++ " Rebase OK but push failed: " ++ msg

def rebaseAlreadyInProgress : String :=
  prefixStr ++ " A rebase is already in progress. Use \"Sync With Upstream (Resume)\" to continue."

def outputHeader : String := "--- Sync With Upstream ---"

def outputResumeHeader : String := "--- Sync With Upstream: Resume ---"

def outputRebasePaused : String := "--- Rebase paused (conflicts) ---"

def outputComplete : String := "--- Sync With Upstream complete ---"

def outputFailed : String := "--- Sync With Upstream failed ---"

def outputResumeComplete : String := "--- Resume complete ---"

def nothingToResume : String := "Nothing to resume."

def infoNoStash : String := "[info] No changes to stash."

def infoPullSkipped : String := "[info] Pull skipped (already up to date or no upstream)."

def infoPullSkippedLocal : String := "[info] Pull skipped."

def infoTempBranchNotDeleted (branch : String) : String :=
  "[info] Temporary branch " ++ branch ++ " not deleted."

def infoLocalBranchSynced (localName remoteName : String) : String :=
  "Local branch " ++ localName ++ " synced with " ++ remoteName ++ "."

def infoUpdateSkipped (branch : String) : String :=
  "[info] Update of " ++ branch ++ " skipped."

def infoNoRebaseInProgress : String :=
  "[info] No rebase in progress (already completed manually?). Proceeding to push and cleanup."

/-- Modelled from the spec: constant missing from the stale
`sync-with-upstream-messages.ts`; logged when a memento is persisted on
push failure. -/
def infoStateSavedForResume : String := "[info] State saved for resume."

/-- Modelled from the spec: constant missing from the stale
`sync-with-upstream-messages.ts`; logged when the generic outer cleanup
starts. -/
def infoCleanupAttempted : String := "[info] Cleanup attempted."

/-- Modelled from the spec: constant missing from the stale
`sync-with-upstream-messages.ts`; names the stash reference when the
outer cleanup could not pop the stash. -/
def infoStashRefOnFailure (ref : String) : String :=
  "[info] Stash kept as " ++ ref ++ ". Use \"git stash pop\" manually."

/-- Modelled from the spec: constant missing from the stale
`sync-with-upstream-messages.ts`; logged when local-branch
reconciliation is skipped because the name equals the feature branch. -/
def infoUpdateSkippedSameBranch (branch : String) : String :=
  "[info] Update of " ++ branch ++ " skipped (same as feature branch)."

/-- Modelled from the spec: constant missing from the stale
`sync-with-upstream-messages.ts`; logged when local-branch
reconciliation is skipped because the local branch already exists. -/
def infoUpdateSkippedExisting (branch : String) : String :=
  "[info] Update of " ++ branch ++ " skipped (local branch exists)."

end syncMessages

/-! ## `sync-with-upstream-workflow.ts` : the resume flow -/

/-- Matcher for the `/^(stash@\{\d+\})/` regex of the outer cleanup:
returns the captured `stash@{N}` group when the line starts with one. -/
def stashRefMatch (line : String) : Option String :=
  let l := line.toList
  if ['s', 't', 'a', 's', 'h', '@', '\x7b'].isPrefixOf l then
    let rest := l.drop 7
    let digits := rest.takeWhile Char.isDigit
    if digits ≠ [] ∧ (rest.drop digits.length).head? = some '\x7d' then
      some (String.mk (['s', 't', 'a', 's', 'h', '@', '\x7b'] ++ digits ++ ['\x7d']))
    else none
  else none

/-- Embedding of `runResumeFlow` (`sync-with-upstream-workflow.ts`).
Returns the run log and the message of an uncaught thrown error (the
push failure), if any.  The source's `if (!featureBranch)` is a JS
falsiness check, so it rejects both a missing and an empty feature
branch; both exits are modelled. -/
def runResumeFlow (env : SyncEnv) : SyncLog × Option String :=
  match env.workspaceRoot? with
  | none => (SyncLog.err {} syncMessages.noWorkspace, none)
  | some workspaceRoot =>
    let (w, gitDir?) := resolveGitDir env {}
    match gitDir? with
    | none => (w.err syncMessages.notGitRepo, none)
    | some gitDir =>
      let w := w.out syncMessages.outputResumeHeader
      let rebaseActive := isRebaseInProgress gitDir env
      let memento? := env.memento?
      if (match memento? with
          | some m => m.workspaceRoot != workspaceRoot
          | none => false) then
        ((w.err syncMessages.rebaseInOtherWorkspace).out
          syncMessages.rebaseInOtherWorkspace, none)
      else if !rebaseActive ∧ memento? = none then
        ((w.info syncMessages.noRebaseNothingToResume).out
          syncMessages.nothingToResume, none)
      else
        let featureBranch? :=
          match memento? with
          | some m => some m.featureBranch
          | none => readRebaseHeadName gitDir env
        match featureBranch? with
        | none => (w.err syncMessages.couldNotDetermineRebaseBranch, none)
        | some featureBranch =>
          if featureBranch = "" then
            (w.err syncMessages.couldNotDetermineRebaseBranch, none)
          else
          let hasStash := match memento? with | some m => m.hasStash | none => false
          let tempBranchToCleanup :=
            match memento? with | some m => m.tempBranchToCleanup | none => none
          let step1 : SyncLog × Bool :=
            if rebaseActive then
              let (w1, co) := syncGit env w ["rebase", "--continue"]
              match co with
              | .ok _ => (w1, true)
              | .err msg _ _ =>
                if jsIncludes msg.toLower "conflict"
                    || jsIncludes msg.toLower "could not apply" then
                  ((w1.err syncMessages.remainingConflicts).out ("[error] " ++ msg), false)
                else
                  ((w1.err (syncMessages.errorGeneric msg)).out ("[error] " ++ msg), false)
            else (w.out syncMessages.infoNoRebaseInProgress, true)
          match step1 with
          | (w, false) => (w, none)
          | (w, true) =>
            let (w, po) := syncGit env w ["push", "--force-with-lease"]
            match po with
            | .err pushMsg _ _ =>
                (w.err (syncMessages.rebaseOkPushFailed pushMsg), some pushMsg)
            | .ok _ =>
              let w :=
                match tempBranchToCleanup with
                | some tb =>
                  let (w1, delo) := syncGit env w ["branch", "-D", tb]
                  match delo with
                  | .ok _ => w1
                  | .err _ _ _ => w1.out (syncMessages.infoTempBranchNotDeleted tb)
                | none => w
              let w :=
                if hasStash then
                  let (w1, so) := syncGit env w ["stash", "pop"]
                  match so with
                  | .ok _ => w1
                  | .err popMsg _ _ =>
                    (w1.err syncMessages.stashPopFailed).out ("[stash-pop-error] " ++ popMsg)
                else w
              (((w.clearMem).out syncMessages.outputResumeComplete).info
                (syncMessages.syncedSuccess featureBranch), none)

/-- Embedding of `runSyncWithUpstreamResumeWorkflow`. -/
def runSyncWithUpstreamResumeWorkflow (env : SyncEnv) : SyncLog × Option String :=
  runResumeFlow env

/-! ## `sync-with-upstream-workflow.ts` : the fresh-sync flow -/

/-- The mutable variables of `runSyncFlow` read by its `catch` handler. -/
structure SyncVars where
  featureBranch? : Option String := none
  hasStash : Bool := false
  tempBranchToCleanup? : Option String := none
  skipOuterCleanup : Bool := false
deriving DecidableEq

/-- The temporary branch name derived from a remote upstream ref:
`__gsp_sync_` followed by the ref with `/` and whitespace replaced by
`_`, truncated to 40 characters. -/
def tempBranchFor (upstreamRef : String) : String :=
  TEMP_BRANCH_PREFIX ++ String.mk
    ((upstreamRef.toList.map (fun c => if c == '/' || isJsWs c then '_' else c)).take 40)

/-- The quick-pick label the sync workflow shows for a branch item. -/
def branchLabelOf (b : BranchItem) : String :=
  if b.isRemote then b.label ++ " (remote)" else b.label

/-- The quick-pick items the sync workflow builds from the branch
listing. -/
def syncQuickItemsOf (items : List BranchItem) : List SyncQuickItem :=
  items.map (fun b =>
    SyncQuickItem.mk (branchLabelOf b) (if b.isRemote then none else some "local") false)

/-- The error classification of the generic handlers: not-a-repository
and git-not-found are detected by substring matching on the lowercased
message; anything else is surfaced verbatim. -/
def classifyGitError (message : String) : String :=
  if jsIncludes message.toLower "not a git repository" then syncMessages.notGitRepo
  else if jsIncludes message.toLower "command not found"
      || jsIncludes message.toLower "enoent" then syncMessages.gitNotInstalled
  else syncMessages.errorGeneric message

/-- The shared tail of the fresh-sync body after the rebase target is
prepared: return to the feature branch, rebase, push, post-push
reconciliation and stash recovery.  Mirrors `runSyncFlow` lines 149-262
of `sync-with-upstream-workflow.ts`. -/
def syncAfterPrepare (env : SyncEnv) (workspaceRoot gitDir featureBranch upstreamRef : String)
    (isRemote : Bool) (branchToRebaseOnto : String) (w : SyncLog) (v : SyncVars) :
    SyncLog × SyncVars × Option String :=
  let (w, cb) := syncGit env w ["checkout", featureBranch]
  match cb with
  | .err m _ _ => (w, v, some m)
  | .ok _ =>
  let (w, ro) := syncGit env w ["rebase", branchToRebaseOnto]
  match ro with
  | .err rebaseMsg _ _ =>
      if isRebaseInProgress gitDir env then
        let m : SyncMemento :=
          ⟨workspaceRoot, featureBranch, v.hasStash, upstreamRef,
            if isRemote then some branchToRebaseOnto else none⟩
        (((w.saveMem m).info syncMessages.rebaseConflicts).out
          syncMessages.outputRebasePaused, v, none)
      else (w, v, some rebaseMsg)
  | .ok _ =>
  let (w, po) := syncGit env w ["push", "--force-with-lease"]
  match po with
  | .err pushMsg _ _ =>
      let m0 : SyncMemento :=
        ⟨workspaceRoot, featureBranch, v.hasStash, upstreamRef,
          if isRemote then some branchToRebaseOnto else none⟩
      let w := (w.saveMem m0).out syncMessages.infoStateSavedForResume
      let wm1 : SyncLog × SyncMemento :=
        if v.hasStash then
          let (w1, so) := syncGit env w ["stash", "pop"]
          match so with
          | .ok _ =>
            let m1 : SyncMemento := { m0 with hasStash := false }
            (w1.saveMem m1, m1)
          | .err _ _ _ => (w1, m0)
        else (w, m0)
      let (w, m1) := wm1
      let w :=
        if isRemote ∧ branchToRebaseOnto ≠ "" then
          let (w1, delo) := syncGit env w ["branch", "-D", branchToRebaseOnto]
          match delo with
          | .ok _ => w1.saveMem { m1 with tempBranchToCleanup := none }
          | .err _ _ _ => w1
        else w
      let w := w.err (syncMessages.pushFailed pushMsg)
      let v := { v with skipOuterCleanup := true }
      (w, v, some pushMsg)
  | .ok _ =>
  let w :=
    if isRemote then
      let (w1, delo) := syncGit env w ["branch", "-D", branchToRebaseOnto]
      let w1 :=
        match delo with
        | .ok _ => w1
        | .err _ _ _ => w1.out (syncMessages.infoTempBranchNotDeleted branchToRebaseOnto)
      let slashIdx := jsIndexOfChar upstreamRef '/'
      let localUpstream :=
        if slashIdx > 0 then jsSliceFrom upstreamRef (slashIdx + 1) else upstreamRef
      if localUpstream = featureBranch then
        w1.out (syncMessages.infoUpdateSkippedSameBranch localUpstream)
      else
        let (w2, vo) := syncGit env w1 ["rev-parse", "--verify", "refs/heads/" ++ localUpstream]
        match vo with
        | .ok _ => w2.out (syncMessages.infoUpdateSkippedExisting localUpstream)
        | .err _ _ _ =>
          let (w3, co) := syncGit env w2 ["branch", localUpstream, upstreamRef]
          match co with
          | .ok _ => w3.out (syncMessages.infoLocalBranchSynced localUpstream upstreamRef)
          | .err _ _ _ => w3.out (syncMessages.infoUpdateSkipped localUpstream)
    else w
  let w :=
    if v.hasStash then
      let (w1, so) := syncGit env w ["stash", "pop"]
      match so with
      | .ok _ => w1
      | .err popMsg _ _ =>
        (w1.err syncMessages.rebaseOkStashFailed).out ("[stash-pop-error] " ++ popMsg)
    else w
  ((w.out syncMessages.outputComplete).info
    (syncMessages.syncedWith featureBranch upstreamRef), v, none)

/-- The `try` body of `runSyncFlow`: fetch, current-branch and listing
lookups, selection, optional stash, rebase-target preparation, then the
shared tail.  Returns the log, the final variable values and the thrown
error message, if any. -/
def syncBody (env : SyncEnv) (workspaceRoot gitDir : String) (w : SyncLog) :
    SyncLog × SyncVars × Option String :=
  let v : SyncVars := {}
  let (w, fetchOut) := syncGit env w ["fetch", "-p"]
  match fetchOut with
  | .err m _ _ => (w, v, some m)
  | .ok _ =>
  let (w, headOut) := syncGit env w ["rev-parse", "--abbrev-ref", "HEAD"]
  let (w, listOut) := syncGit env w ["branch", "-a"]
  match headOut with
  | .err m _ _ => (w, v, some m)
  | .ok headRes =>
  match listOut with
  | .err m _ _ => (w, v, some m)
  | .ok listRes =>
  let featureBranch := jsTrim headRes.stdout
  if featureBranch = "" ∨ featureBranch = "HEAD" then
    (w.err syncMessages.couldNotDetermineBranch, v, none)
  else
  let v := { v with featureBranch? := some featureBranch }
  let branchItems := parseBranches listRes.stdout
  if branchItems = [] then (w.info syncMessages.noBranchesForSync, v, none)
  else
  match env.pick (syncQuickItemsOf branchItems) with
  | .cancelled => (w.out syncMessages.operationCancelled, v, none)
  | .many _ => (w.out syncMessages.operationCancelled, v, none)
  | .one selectedItem =>
  match branchItems.find? (fun b => branchLabelOf b = selectedItem.label) with
  | none => (w, v, none)
  | some targetItem =>
  let upstreamRef := targetItem.ref
  let (w, statusOut) := syncGit env w ["status", "--porcelain", "-u"]
  let statusStdout := match statusOut with | .ok r => r.stdout | .err _ _ _ => ""
  let hasLocalChanges := jsTrim statusStdout ≠ ""
  let wv : SyncLog × SyncVars :=
    if hasLocalChanges then
      let (w1, so) := syncGit env w ["stash", "push", "-u", "-m", "gsp-sync-with-upstream"]
      match so with
      | .ok _ => (w1, { v with hasStash := true })
      | .err _ _ _ => (w1.out syncMessages.infoNoStash, v)
    else (w, v)
  let (w, v) := wv
  let isRemote := targetItem.isRemote
  if isRemote then
    let tempBranch := tempBranchFor upstreamRef
    let (w, co) := syncGit env w ["checkout", "-B", tempBranch, upstreamRef]
    match co with
    | .err m _ _ => (w, v, some m)
    | .ok _ =>
    let v := { v with tempBranchToCleanup? := some tempBranch }
    let slashIdx := jsIndexOfChar upstreamRef '/'
    let remoteName := jsSlice upstreamRef 0 slashIdx
    let branchName := jsSliceFrom upstreamRef (slashIdx + 1)
    let (w, po) := syncGit env w ["pull", remoteName, branchName]
    let w := match po with | .ok _ => w | .err _ _ _ => w.out syncMessages.infoPullSkipped
    syncAfterPrepare env workspaceRoot gitDir featureBranch upstreamRef true tempBranch w v
  else
    let (w, co) := syncGit env w ["checkout", upstreamRef]
    match co with
    | .err m _ _ => (w, v, some m)
    | .ok _ =>
    let (w, po) := syncGit env w ["pull"]
    let w := match po with | .ok _ => w | .err _ _ _ => w.out syncMessages.infoPullSkippedLocal
    syncAfterPrepare env workspaceRoot gitDir featureBranch upstreamRef false upstreamRef w v

/-- The `catch` handler of `runSyncFlow`: unless the push-failure path
already performed its own recovery (`skipOuterCleanup`), attempt the
best-effort return to the feature branch, temporary-branch deletion and
stash pop (falling back to scanning `stash list` for the marker
message), then classify the error; always log the raw message and the
failure trailer. -/
def syncCatch (env : SyncEnv) (w : SyncLog) (v : SyncVars) (message : String) : SyncLog :=
  let w :=
    if !v.skipOuterCleanup then
      let w := w.out syncMessages.infoCleanupAttempted
      let w :=
        match v.featureBranch? with
        | some fb => (syncGit env w ["checkout", fb]).1
        | none => w
      let w :=
        match v.tempBranchToCleanup? with
        | some tb =>
          let (w1, o) := syncGit env w ["branch", "-D", tb]
          match o with
          | .ok _ => w1
          | .err _ _ _ => w1.out (syncMessages.infoTempBranchNotDeleted tb)
        | none => w
      let w :=
        if v.hasStash then
          let (w1, so) := syncGit env w ["stash", "pop"]
          match so with
          | .ok _ => w1
          | .err _ _ _ =>
            let (w2, lo) := syncGit env w1 ["stash", "list"]
            let listStdout := match lo with | .ok r => r.stdout | .err _ _ _ => ""
            let line? := (splitLines listStdout).find? (fun l => jsIncludes l "gsp-sync-with-upstream")
            let ref :=
              match line? with
              | some line =>
                match stashRefMatch line with
                | some r => r
                | none => "stash@{0}"
              | none => "stash@{0}"
            w2.out (syncMessages.infoStashRefOnFailure ref)
        else w
      w
    else w
  let w :=
    if !v.skipOuterCleanup then w.err (classifyGitError message)
    else w
  (w.out ("[error] " ++ message)).out syncMessages.outputFailed

/-- Embedding of `runSyncFlow` (`sync-with-upstream-workflow.ts`):
resolve the workspace and git directory, run the body, and on a thrown
error run the `catch` handler. -/
def runSyncFlow (env : SyncEnv) (w : SyncLog) : SyncLog :=
  match env.workspaceRoot? with
  | none => w.err syncMessages.noWorkspace
  | some workspaceRoot =>
    let (w, gitDir?) := resolveGitDir env w
    match gitDir? with
    | none => w.err syncMessages.notGitRepo
    | some gitDir =>
      let w := (w.out syncMessages.outputHeader).out ("Workspace: " ++ workspaceRoot)
      match syncBody env workspaceRoot gitDir w with
      | (w, _, none) => w
      | (w, v, some message) => syncCatch env w v message

/-- Embedding of `runSyncWithUpstreamWorkflow`: the entry guard — if the
workspace and git directory resolve and a rebase is active on disk,
refuse to start and instruct the user to resume; otherwise run the
fresh-sync flow. -/
def runSyncWithUpstreamWorkflow (env : SyncEnv) : SyncLog :=
  match env.workspaceRoot? with
  | none => runSyncFlow env {}
  | some _ =>
    let (w, gitDir?) := resolveGitDir env {}
    match gitDir? with
    | none => runSyncFlow env w
    | some gitDir =>
      if isRebaseInProgress gitDir env then
        w.info syncMessages.rebaseAlreadyInProgress
      else runSyncFlow env w

/-! ## Reduction lemma: a fresh sync reaching the rebase phase -/

/-- The log accumulated by `runSyncFlow` just before the
return-to-feature-branch/rebase phase, as a function of the environment
outcomes: the five lookups, the optional stash push, and the
target-preparation commands. -/
def syncPrepLog (wr : String) (ti : BranchItem) (rs : CommandResult)
    (os opull : ExecOutcome) : SyncLog :=
  { gitCalls := [["rev-parse", "--absolute-git-dir"], ["fetch", "-p"],
      ["rev-parse", "--abbrev-ref", "HEAD"], ["branch", "-a"], ["status", "--porcelain", "-u"]]
      ++ (if jsTrim rs.stdout ≠ "" then
            [["stash", "push", "-u", "-m", "gsp-sync-with-upstream"]] else [])
      ++ (if ti.isRemote then [["checkout", "-B", tempBranchFor ti.ref, ti.ref],
            ["pull", jsSlice ti.ref 0 (jsIndexOfChar ti.ref '/'),
              jsSliceFrom ti.ref (jsIndexOfChar ti.ref '/' + 1)]]
          else [["checkout", ti.ref], ["pull"]]),
    output := [syncMessages.outputHeader, "Workspace: " ++ wr]
      ++ (if jsTrim rs.stdout ≠ "" then
            (match os with | .ok _ => [] | .err _ _ _ => [syncMessages.infoNoStash]) else [])
      ++ (match opull with
          | .ok _ => []
          | .err _ _ _ =>
            [if ti.isRemote then syncMessages.infoPullSkipped
              else syncMessages.infoPullSkippedLocal]),
    infos := [], errors := [], mementoWrites := [] }

/-- The variable values of `runSyncFlow` at the rebase phase: the
feature branch is known, `hasStash` holds iff local changes were seen
and the stash push succeeded, and the temporary branch is recorded only
for a remote target. -/
def syncPrepVars (fb : String) (ti : BranchItem) (rs : CommandResult)
    (os : ExecOutcome) : SyncVars :=
  { featureBranch? := some fb,
    hasStash := if jsTrim rs.stdout ≠ ""
      then (match os with | .ok _ => true | .err _ _ _ => false) else false,
    tempBranchToCleanup? := if ti.isRemote then some (tempBranchFor ti.ref) else none,
    skipOuterCleanup := false }

/-- Under success outcomes for the lookups and target preparation, a
fresh sync run equals the shared rebase/push tail applied to the
accumulated prefix log and variables, composed with the `catch`
handler. -/
theorem runSyncFlow_reaches (env : SyncEnv) (wr gd fb : String)
    (r0 rf rh rl rs rc : CommandResult) (si : SyncQuickItem) (ti : BranchItem)
    (os opull : ExecOutcome)
    (hwr : env.workspaceRoot? = some wr)
    (hgd : env.git ["rev-parse", "--absolute-git-dir"] = .ok r0)
    (htrim : jsTrim r0.stdout = gd) (hne : gd ≠ "")
    (hfetch : env.git ["fetch", "-p"] = .ok rf)
    (hhead : env.git ["rev-parse", "--abbrev-ref", "HEAD"] = .ok rh)
    (hfb : jsTrim rh.stdout = fb) (hfbne : fb ≠ "") (hfbH : fb ≠ "HEAD")
    (hlist : env.git ["branch", "-a"] = .ok rl)
    (hpick : env.pick (syncQuickItemsOf (parseBranches rl.stdout)) = .one si)
    (hfind : (parseBranches rl.stdout).find? (fun b => branchLabelOf b = si.label) = some ti)
    (hstatus : env.git ["status", "--porcelain", "-u"] = .ok rs)
    (hstash : env.git ["stash", "push", "-u", "-m", "gsp-sync-with-upstream"] = os)
    (hprep : env.git (if ti.isRemote then ["checkout", "-B", tempBranchFor ti.ref, ti.ref]
        else ["checkout", ti.ref]) = .ok rc)
    (hpull : env.git (if ti.isRemote then
        ["pull", jsSlice ti.ref 0 (jsIndexOfChar ti.ref '/'),
          jsSliceFrom ti.ref (jsIndexOfChar ti.ref '/' + 1)]
        else ["pull"]) = opull) :
    runSyncFlow env {} =
      (match syncAfterPrepare env wr gd fb ti.ref ti.isRemote
          (if ti.isRemote then tempBranchFor ti.ref else ti.ref)
          (syncPrepLog wr ti rs os opull) (syncPrepVars fb ti rs os) with
        | (w, _, none) => w
        | (w, v, some msg) => syncCatch env w v msg) := by
  have hnonempty : parseBranches rl.stdout ≠ [] := by
    intro hnil
    rw [hnil] at hfind
    simp at hfind
  unfold runSyncFlow resolveGitDir syncBody syncGit
  simp only [hwr, hgd, htrim, if_neg hne, hfetch, hhead, hfb, hlist, hpick, hfind,
    hstatus, hstash]
  rw [if_neg (show ¬(fb = "" ∨ fb = "HEAD") by simp [hfbne, hfbH])]
  rw [if_neg hnonempty]
  cases hR : ti.isRemote with
  | true =>
      rw [hR] at hprep hpull
      simp only [if_true, ite_true] at hprep hpull
      by_cases hchg : jsTrim rs.stdout = ""
      · cases opull with
        | ok rp => simp [hchg, hR, hprep, hpull, syncPrepLog, syncPrepVars, SyncLog.out]
        | err mp sp ep => simp [hchg, hR, hprep, hpull, syncPrepLog, syncPrepVars, SyncLog.out]
      · cases os with
        | ok rso =>
            cases opull with
            | ok rp => simp [hchg, hR, hprep, hpull, syncPrepLog, syncPrepVars, SyncLog.out]
            | err mp sp ep =>
                simp [hchg, hR, hprep, hpull, syncPrepLog, syncPrepVars, SyncLog.out]
        | err mso sso eso =>
            cases opull with
            | ok rp => simp [hchg, hR, hprep, hpull, syncPrepLog, syncPrepVars, SyncLog.out]
            | err mp sp ep =>
                simp [hchg, hR, hprep, hpull, syncPrepLog, syncPrepVars, SyncLog.out]
  | false =>
      rw [hR] at hprep hpull
      simp only [if_false, ite_false, Bool.false_eq_true] at hprep hpull
      by_cases hchg : jsTrim rs.stdout = ""
      · cases opull with
        | ok rp => simp [hchg, hR, hprep, hpull, syncPrepLog, syncPrepVars, SyncLog.out]
        | err mp sp ep => simp [hchg, hR, hprep, hpull, syncPrepLog, syncPrepVars, SyncLog.out]
      · cases os with
        | ok rso =>
            cases opull with
            | ok rp => simp [hchg, hR, hprep, hpull, syncPrepLog, syncPrepVars, SyncLog.out]
            | err mp sp ep =>
                simp [hchg, hR, hprep, hpull, syncPrepLog, syncPrepVars, SyncLog.out]
        | err mso sso eso =>
            cases opull with
            | ok rp => simp [hchg, hR, hprep, hpull, syncPrepLog, syncPrepVars, SyncLog.out]
            | err mp sp ep =>
                simp [hchg, hR, hprep, hpull, syncPrepLog, syncPrepVars, SyncLog.out]

/-- Field characterisation of the `catch` handler: it never writes the
memento slot and never shows an information message; it appends exactly
one classified error message unless the push-failure path already
reported (`skipOuterCleanup`); and its output always ends with the
failure trailer, preceded by the raw `[error]` line. -/
theorem syncCatch_fields (env : SyncEnv) (w : SyncLog) (v : SyncVars) (msg : String) :
    (syncCatch env w v msg).mementoWrites = w.mementoWrites ∧
    (syncCatch env w v msg).infos = w.infos ∧
    (syncCatch env w v msg).errors
      = w.errors ++ (if v.skipOuterCleanup then [] else [classifyGitError msg]) ∧
    (syncCatch env w v msg).output.getLast? = some syncMessages.outputFailed ∧
    ("[error] " ++ msg) ∈ (syncCatch env w v msg).output := by
  unfold syncCatch
  cases hskip : v.skipOuterCleanup with
  | true => simp [SyncLog.out, SyncLog.err]
  | false =>
      cases v.featureBranch? <;> cases v.tempBranchToCleanup? <;> cases hst : v.hasStash <;>
        · simp only [Bool.not_false, if_true, ite_true, syncGit]
          repeat' split
          all_goals simp_all [syncGit, SyncLog.out, SyncLog.err]

/-- The `catch` handler does nothing but log the raw error and the
failure trailer when the push-failure path already performed its own
recovery. -/
theorem syncCatch_skip (env : SyncEnv) (w : SyncLog) (v : SyncVars) (msg : String)
    (h : v.skipOuterCleanup = true) :
    syncCatch env w v msg = (w.out ("[error] " ++ msg)).out syncMessages.outputFailed := by
  unfold syncCatch
  simp [h]

/-- A temporary branch name is never empty (it starts with the fixed
prefix). -/
theorem tempBranchFor_ne_empty (u : String) : tempBranchFor u ≠ "" := by
  intro h
  have hd := congrArg String.data h
  simp [tempBranchFor, TEMP_BRANCH_PREFIX, String.data_append] at hd

/-! ## Claim C8: resuming with nothing to resume is a no-op -/

/-- C8.  Resuming when no memento is persisted and no rebase is active
on disk reports "nothing to resume", performs exactly one git
invocation — the read-only git-directory resolution — and leaves the
stored state unchanged (no memento writes), throwing nothing. -/
theorem resume_nothing_to_resume (env : SyncEnv) (wr gd : String) (r : CommandResult)
    (hwr : env.workspaceRoot? = some wr)
    (hgd : env.git ["rev-parse", "--absolute-git-dir"] = .ok r)
    (htrim : jsTrim r.stdout = gd)
    (hne : gd ≠ "")
    (hmem : env.memento? = none)
    (hact : isRebaseInProgress gd env = false) :
    (runResumeFlow env).1.gitCalls = [["rev-parse", "--absolute-git-dir"]] ∧
    (runResumeFlow env).1.infos = [syncMessages.noRebaseNothingToResume] ∧
    (runResumeFlow env).1.output
      = [syncMessages.outputResumeHeader, syncMessages.nothingToResume] ∧
    (runResumeFlow env).1.mementoWrites = [] ∧
    (runResumeFlow env).2 = none := by
  unfold runResumeFlow resolveGitDir syncGit
  simp only [hwr, hgd, htrim, if_neg hne, hmem, hact, SyncLog.out, SyncLog.info]
  simp [SyncLog.out, SyncLog.info]

/-- Concrete environment for the C8 witness: a git repository with no
memento and no rebase markers. -/
def resumeIdleEnv : SyncEnv where
  workspaceRoot? := some "/repo"
  git := fun args =>
    if args = ["rev-parse", "--absolute-git-dir"] then .ok ⟨"/repo/.git\n", ""⟩
    else .ok ⟨"", ""⟩
  pick := fun _ => .cancelled
  fileExists := fun _ => false
  readFileUtf8 := fun _ => ""
  memento? := none

/-- Witness for C8 at a concrete idle environment. -/
theorem resume_nothing_to_resume_witness :
    (runResumeFlow resumeIdleEnv).1.gitCalls = [["rev-parse", "--absolute-git-dir"]] ∧
    (runResumeFlow resumeIdleEnv).1.infos = [syncMessages.noRebaseNothingToResume] ∧
    (runResumeFlow resumeIdleEnv).1.output
      = [syncMessages.outputResumeHeader, syncMessages.nothingToResume] ∧
    (runResumeFlow resumeIdleEnv).1.mementoWrites = [] ∧
    (runResumeFlow resumeIdleEnv).2 = none :=
  resume_nothing_to_resume resumeIdleEnv "/repo" "/repo/.git" ⟨"/repo/.git\n", ""⟩
    rfl rfl (by decide) (by decide) rfl (by decide)

/-! ## Claim C6: resume with a persisted memento -/

/-- The claim C6 as stated: for every persisted memento, when no rebase
is active on disk the resume flow proceeds to the force-push step. -/
def resumeClaimC6 : Prop :=
  ∀ (env : SyncEnv) (wr gd : String) (r : CommandResult) (m : SyncMemento),
    env.workspaceRoot? = some wr →
    env.git ["rev-parse", "--absolute-git-dir"] = .ok r →
    jsTrim r.stdout = gd → gd ≠ "" →
    env.memento? = some m →
    isRebaseInProgress gd env = false →
    ["push", "--force-with-lease"] ∈ (runResumeFlow env).1.gitCalls

/-- Concrete counterexample environment for C6: a memento persisted by a
different workspace (`/other`), current workspace `/repo`, and no rebase
markers on disk. -/
def resumeCrossEnv : SyncEnv where
  workspaceRoot? := some "/repo"
  git := fun args =>
    if args = ["rev-parse", "--absolute-git-dir"] then .ok ⟨"/repo/.git\n", ""⟩
    else .ok ⟨"", ""⟩
  pick := fun _ => .cancelled
  fileExists := fun _ => false
  readFileUtf8 := fun _ => ""
  memento? := some ⟨"/other", "feat", false, "origin/main", none⟩

/-- Counterexample to C6 as stated: with a persisted memento from a
different workspace and no rebase active, the code errors out with the
cross-workspace message instead of proceeding to the push — the
mismatch check in the source is not conditioned on a rebase being
active. -/
theorem resume_crossWorkspace_refutes_C6 : ¬ resumeClaimC6 := by
  intro h
  have := h resumeCrossEnv "/repo" "/repo/.git" ⟨"/repo/.git\n", ""⟩
    ⟨"/other", "feat", false, "origin/main", none⟩
    rfl rfl (by decide) (by decide) rfl (by decide)
  revert this
  decide

/-- C6 (amended).  For every persisted memento: if its `workspaceRoot`
differs from the current workspace the resume flow errors out touching
no state — whether or not a rebase is active — issuing only the
read-only git-directory resolution and no memento write; if it belongs
to the current workspace, records a non-empty feature branch (as every
memento saved by the sync flow does) and no rebase is active on disk,
the flow proceeds directly to the force-push step: no
`rebase --continue` is ever issued and the push is the very next git
call after the git-directory resolution. -/
theorem resume_memento_paths (env : SyncEnv) (wr gd : String) (r : CommandResult)
    (m : SyncMemento)
    (hwr : env.workspaceRoot? = some wr)
    (hgd : env.git ["rev-parse", "--absolute-git-dir"] = .ok r)
    (htrim : jsTrim r.stdout = gd)
    (hne : gd ≠ "")
    (hmem : env.memento? = some m) :
    (m.workspaceRoot ≠ wr →
      (runResumeFlow env).1.gitCalls = [["rev-parse", "--absolute-git-dir"]] ∧
      (runResumeFlow env).1.mementoWrites = [] ∧
      (runResumeFlow env).1.errors = [syncMessages.rebaseInOtherWorkspace]) ∧
    (m.workspaceRoot = wr → m.featureBranch ≠ "" → isRebaseInProgress gd env = false →
      ["rebase", "--continue"] ∉ (runResumeFlow env).1.gitCalls ∧
      ((runResumeFlow env).1.gitCalls.take 2
        = [["rev-parse", "--absolute-git-dir"], ["push", "--force-with-lease"]])) := by
  constructor
  · intro hdiff
    unfold runResumeFlow resolveGitDir syncGit
    simp only [hwr, hgd, htrim, if_neg hne, hmem]
    rw [if_pos (by simpa [bne_iff_ne] using hdiff)]
    simp [SyncLog.out, SyncLog.err]
  · intro heq hfbne hact
    unfold runResumeFlow resolveGitDir syncGit
    simp only [hwr, hgd, htrim, if_neg hne, hmem, hact]
    rw [if_neg (by simp [heq])]
    rw [if_neg hfbne]
    simp only [Bool.not_false, reduceCtorEq, and_false, if_false, if_neg]
    cases hpush : env.git ["push", "--force-with-lease"] with
    | err msg so se =>
        simp [hpush, SyncLog.out, SyncLog.err, SyncLog.info]
    | ok pr =>
        cases htmp : m.tempBranchToCleanup with
        | none =>
            cases hst : m.hasStash with
            | false => simp [hpush, htmp, hst, SyncLog.out, SyncLog.err, SyncLog.info,
                SyncLog.clearMem]
            | true =>
                cases hpop : env.git ["stash", "pop"] with
                | ok r2 => simp [hpush, htmp, hst, hpop, SyncLog.out, SyncLog.err,
                    SyncLog.info, SyncLog.clearMem]
                | err m2 s2 e2 => simp [hpush, htmp, hst, hpop, SyncLog.out, SyncLog.err,
                    SyncLog.info, SyncLog.clearMem]
        | some tb =>
            cases hdel : env.git ["branch", "-D", tb] with
            | ok r1 =>
                cases hst : m.hasStash with
                | false => simp [hpush, htmp, hst, hdel, SyncLog.out, SyncLog.err,
                    SyncLog.info, SyncLog.clearMem]
                | true =>
                    cases hpop : env.git ["stash", "pop"] with
                    | ok r2 => simp [hpush, htmp, hst, hdel, hpop, SyncLog.out,
                        SyncLog.err, SyncLog.info, SyncLog.clearMem]
                    | err m2 s2 e2 => simp [hpush, htmp, hst, hdel, hpop, SyncLog.out,
                        SyncLog.err, SyncLog.info, SyncLog.clearMem]
            | err m1 s1 e1 =>
                cases hst : m.hasStash with
                | false => simp [hpush, htmp, hst, hdel, SyncLog.out, SyncLog.err,
                    SyncLog.info, SyncLog.clearMem]
                | true =>
                    cases hpop : env.git ["stash", "pop"] with
                    | ok r2 => simp [hpush, htmp, hst, hdel, hpop, SyncLog.out,
                        SyncLog.err, SyncLog.info, SyncLog.clearMem]
                    | err m2 s2 e2 => simp [hpush, htmp, hst, hdel, hpop, SyncLog.out,
                        SyncLog.err, SyncLog.info, SyncLog.clearMem]

/-- Concrete environment for the C6 witness: a memento of the current
workspace, no rebase markers, push succeeding. -/
def resumeOwnEnv : SyncEnv where
  workspaceRoot? := some "/repo"
  git := fun args =>
    if args = ["rev-parse", "--absolute-git-dir"] then .ok ⟨"/repo/.git\n", ""⟩
    else .ok ⟨"", ""⟩
  pick := fun _ => .cancelled
  fileExists := fun _ => false
  readFileUtf8 := fun _ => ""
  memento? := some ⟨"/repo", "feat", false, "origin/main", none⟩

/-- Witness for the amended C6: at a concrete same-workspace memento
with no active rebase, no `rebase --continue` is issued and the push
immediately follows the git-directory resolution. -/
theorem resume_memento_paths_witness :
    ["rebase", "--continue"] ∉ (runResumeFlow resumeOwnEnv).1.gitCalls ∧
    ((runResumeFlow resumeOwnEnv).1.gitCalls.take 2
      = [["rev-parse", "--absolute-git-dir"], ["push", "--force-with-lease"]]) :=
  (resume_memento_paths resumeOwnEnv "/repo" "/repo/.git" ⟨"/repo/.git\n", ""⟩
    ⟨"/repo", "feat", false, "origin/main", none⟩
    rfl rfl (by decide) (by decide) rfl).2 rfl (by decide) (by decide)

/-! ## Claim C10: memento-less resume -/

/-- C10.  For every resume run in which no memento is persisted (the
rebase markers alone trigger the resume): the flow never issues
`stash pop` nor any `branch -D` command — `hasStash` defaults to false
and the temporary branch to absent — and, when the resume succeeds
(rebase markers present, `rebase-merge/head-name` readable, continue and
push succeeding, and the head-name contents non-empty after trimming and
prefix-stripping — the source's `if (!featureBranch)` falsiness check
errors out on an empty name before any further git call), the feature
branch named in the success report is the trimmed contents of git's
on-disk head-name file with any `refs/heads/` prefix stripped. -/
theorem resume_no_memento_never_pops (env : SyncEnv) (wr gd : String) (r : CommandResult)
    (hwr : env.workspaceRoot? = some wr)
    (hgd : env.git ["rev-parse", "--absolute-git-dir"] = .ok r)
    (htrim : jsTrim r.stdout = gd)
    (hne : gd ≠ "")
    (hmem : env.memento? = none) :
    (["stash", "pop"] ∉ (runResumeFlow env).1.gitCalls ∧
      ∀ tb, ["branch", "-D", tb] ∉ (runResumeFlow env).1.gitCalls) ∧
    (∀ (content : String) (cr pr : CommandResult),
      isRebaseInProgress gd env = true →
      env.fileExists (pathJoin (pathJoin gd "rebase-merge") "head-name") = true →
      env.readFileUtf8 (pathJoin (pathJoin gd "rebase-merge") "head-name") = content →
      stripRefsHeads (jsTrim content) ≠ "" →
      env.git ["rebase", "--continue"] = .ok cr →
      env.git ["push", "--force-with-lease"] = .ok pr →
      (runResumeFlow env).1.infos
        = [syncMessages.syncedSuccess (stripRefsHeads (jsTrim content))]) := by
  constructor
  · unfold runResumeFlow resolveGitDir syncGit
    simp only [hwr, hgd, htrim, if_neg hne, hmem]
    cases hb : isRebaseInProgress gd env with
    | false => simp [SyncLog.out, SyncLog.info]
    | true =>
        cases hfb : readRebaseHeadName gd env with
        | none => simp [SyncLog.out, SyncLog.info, SyncLog.err]
        | some fb =>
            by_cases hfb0 : fb = ""
            · simp [hfb0, SyncLog.out, SyncLog.info, SyncLog.err]
            · cases hcont : env.git ["rebase", "--continue"] with
              | err m1 s1 e1 =>
                  by_cases hcls : (jsIncludes m1.toLower "conflict"
                      || jsIncludes m1.toLower "could not apply") = true
                  · simp [hfb0, hcont, hcls, SyncLog.out, SyncLog.info, SyncLog.err]
                  · simp only [Bool.not_eq_true] at hcls
                    simp [hfb0, hcont, hcls, SyncLog.out, SyncLog.info, SyncLog.err]
              | ok cr =>
                  cases hpush : env.git ["push", "--force-with-lease"] with
                  | err m2 s2 e2 => simp [hfb0, hcont, hpush, SyncLog.out, SyncLog.info,
                      SyncLog.err, SyncLog.clearMem]
                  | ok pr => simp [hfb0, hcont, hpush, SyncLog.out, SyncLog.info,
                      SyncLog.err, SyncLog.clearMem]
  · intro content cr pr hact hfile hread hfbne hcont hpush
    unfold runResumeFlow resolveGitDir syncGit
    simp only [hwr, hgd, htrim, if_neg hne, hmem, hact]
    rw [show readRebaseHeadName gd env
        = some (stripRefsHeads (jsTrim content)) by
      unfold readRebaseHeadName
      simp [hfile, hread]]
    simp [hfbne, hcont, hpush, SyncLog.out, SyncLog.info, SyncLog.err, SyncLog.clearMem]

/-- Concrete environment for the C10 witness: no memento, rebase markers
present, `head-name` holding `refs/heads/feature/xyz`, every git command
succeeding. -/
def resumeMarkerEnv : SyncEnv where
  workspaceRoot? := some "/repo"
  git := fun args =>
    if args = ["rev-parse", "--absolute-git-dir"] then .ok ⟨"/repo/.git\n", ""⟩
    else .ok ⟨"", ""⟩
  pick := fun _ => .cancelled
  fileExists := fun p =>
    p = "/repo/.git/rebase-merge" || p = "/repo/.git/rebase-merge/head-name"
  readFileUtf8 := fun p =>
    if p = "/repo/.git/rebase-merge/head-name" then "refs/heads/feature/xyz\n" else ""
  memento? := none

/-- Witness for C10: at a concrete marker-only environment, no pops or
branch deletions are issued and the success report names
`feature/xyz`. -/
theorem resume_no_memento_never_pops_witness :
    (["stash", "pop"] ∉ (runResumeFlow resumeMarkerEnv).1.gitCalls ∧
      ["branch", "-D", "tmp"] ∉ (runResumeFlow resumeMarkerEnv).1.gitCalls) ∧
    (runResumeFlow resumeMarkerEnv).1.infos
      = [syncMessages.syncedSuccess "feature/xyz"] := by
  have h := resume_no_memento_never_pops resumeMarkerEnv "/repo" "/repo/.git"
    ⟨"/repo/.git\n", ""⟩ rfl rfl (by decide) (by decide) rfl
  refine ⟨⟨h.1.1, h.1.2 "tmp"⟩, ?_⟩
  have h2 := h.2 "refs/heads/feature/xyz\n" ⟨"", ""⟩ ⟨"", ""⟩
    (by decide) (by decide) rfl (by decide) rfl rfl
  simpa using h2

/-! ## Claim C7: fresh-sync entry guard -/

/-- C7.  Whenever the rebase-in-progress markers are present on disk,
starting a fresh sync refuses to begin: the user is told to resume
instead and the only git invocation of the run is the read-only
git-directory resolution — in particular no fetch, stash, checkout,
rebase, push or branch command is issued, and no state is written. -/
theorem syncWorkflow_entry_guard (env : SyncEnv) (wr gd : String) (r : CommandResult)
    (hwr : env.workspaceRoot? = some wr)
    (hgd : env.git ["rev-parse", "--absolute-git-dir"] = .ok r)
    (htrim : jsTrim r.stdout = gd)
    (hne : gd ≠ "")
    (hact : isRebaseInProgress gd env = true) :
    (runSyncWithUpstreamWorkflow env).gitCalls = [["rev-parse", "--absolute-git-dir"]] ∧
    (runSyncWithUpstreamWorkflow env).infos = [syncMessages.rebaseAlreadyInProgress] ∧
    (runSyncWithUpstreamWorkflow env).mementoWrites = [] ∧
    ∀ c ∈ (runSyncWithUpstreamWorkflow env).gitCalls,
      c = ["rev-parse", "--absolute-git-dir"] := by
  unfold runSyncWithUpstreamWorkflow resolveGitDir syncGit
  simp only [hwr, hgd, htrim, if_neg hne, hact]
  simp [SyncLog.info]

/-- Concrete environment for the C7 witness: rebase markers present. -/
def syncGuardEnv : SyncEnv where
  workspaceRoot? := some "/repo"
  git := fun args =>
    if args = ["rev-parse", "--absolute-git-dir"] then .ok ⟨"/repo/.git\n", ""⟩
    else .ok ⟨"", ""⟩
  pick := fun _ => .cancelled
  fileExists := fun p => p = "/repo/.git/rebase-merge"
  readFileUtf8 := fun _ => ""
  memento? := none

/-- Witness for C7 at a concrete environment with markers present. -/
theorem syncWorkflow_entry_guard_witness :
    (runSyncWithUpstreamWorkflow syncGuardEnv).gitCalls
        = [["rev-parse", "--absolute-git-dir"]] ∧
    (runSyncWithUpstreamWorkflow syncGuardEnv).infos
        = [syncMessages.rebaseAlreadyInProgress] ∧
    (runSyncWithUpstreamWorkflow syncGuardEnv).mementoWrites = [] ∧
    ∀ c ∈ (runSyncWithUpstreamWorkflow syncGuardEnv).gitCalls,
      c = ["rev-parse", "--absolute-git-dir"] :=
  syncWorkflow_entry_guard syncGuardEnv "/repo" "/repo/.git" ⟨"/repo/.git\n", ""⟩
    rfl rfl (by decide) (by decide) (by decide)

/-! ## Claim C3: rebase failure — conflict pause vs. fatal propagation -/

/-- C3.  In a fresh sync, whenever the rebase step fails: if the
repository's rebase-in-progress markers are present, the engine persists
exactly one memento whose fields are exactly the workspace root, the
feature branch, the stash flag, the upstream ref, and — only when the
target was remote — the temporary branch; informs the user with the
conflict message; reports the pause trailer rather than any failure
(no error message, no push issued).  Without the markers, the failure
propagates to the generic fatal-error handler: nothing is persisted, a
single classified error is shown, the raw message is logged and the run
ends with the failure trailer. -/
theorem sync_rebase_conflict_pauses (env : SyncEnv) (wr gd fb rmsg : String)
    (r0 rf rh rl rs rc rb : CommandResult) (si : SyncQuickItem) (ti : BranchItem)
    (os opull : ExecOutcome) (rso rse : String)
    (hwr : env.workspaceRoot? = some wr)
    (hgd : env.git ["rev-parse", "--absolute-git-dir"] = .ok r0)
    (htrim : jsTrim r0.stdout = gd) (hne : gd ≠ "")
    (hfetch : env.git ["fetch", "-p"] = .ok rf)
    (hhead : env.git ["rev-parse", "--abbrev-ref", "HEAD"] = .ok rh)
    (hfb : jsTrim rh.stdout = fb) (hfbne : fb ≠ "") (hfbH : fb ≠ "HEAD")
    (hlist : env.git ["branch", "-a"] = .ok rl)
    (hpick : env.pick (syncQuickItemsOf (parseBranches rl.stdout)) = .one si)
    (hfind : (parseBranches rl.stdout).find? (fun b => branchLabelOf b = si.label) = some ti)
    (hstatus : env.git ["status", "--porcelain", "-u"] = .ok rs)
    (hstash : env.git ["stash", "push", "-u", "-m", "gsp-sync-with-upstream"] = os)
    (hprep : env.git (if ti.isRemote then ["checkout", "-B", tempBranchFor ti.ref, ti.ref]
        else ["checkout", ti.ref]) = .ok rc)
    (hpull : env.git (if ti.isRemote then
        ["pull", jsSlice ti.ref 0 (jsIndexOfChar ti.ref '/'),
          jsSliceFrom ti.ref (jsIndexOfChar ti.ref '/' + 1)]
        else ["pull"]) = opull)
    (hback : env.git ["checkout", fb] = .ok rb)
    (hrebase : env.git ["rebase", if ti.isRemote then tempBranchFor ti.ref else ti.ref]
        = .err rmsg rso rse) :
    (isRebaseInProgress gd env = true →
      (runSyncFlow env {}).mementoWrites
        = [some ⟨wr, fb, (syncPrepVars fb ti rs os).hasStash, ti.ref,
            if ti.isRemote then some (tempBranchFor ti.ref) else none⟩] ∧
      (runSyncFlow env {}).infos = [syncMessages.rebaseConflicts] ∧
      (runSyncFlow env {}).errors = [] ∧
      (runSyncFlow env {}).output.getLast? = some syncMessages.outputRebasePaused ∧
      ["push", "--force-with-lease"] ∉ (runSyncFlow env {}).gitCalls) ∧
    (isRebaseInProgress gd env = false →
      (runSyncFlow env {}).mementoWrites = [] ∧
      (runSyncFlow env {}).errors = [classifyGitError rmsg] ∧
      (runSyncFlow env {}).infos = [] ∧
      (runSyncFlow env {}).output.getLast? = some syncMessages.outputFailed ∧
      ("[error] " ++ rmsg) ∈ (runSyncFlow env {}).output) := by
  rw [runSyncFlow_reaches env wr gd fb r0 rf rh rl rs rc si ti os opull
    hwr hgd htrim hne hfetch hhead hfb hfbne hfbH hlist hpick hfind hstatus hstash
    hprep hpull]
  constructor
  · intro hmark
    unfold syncAfterPrepare syncGit
    simp only [hback, hrebase, hmark]
    refine ⟨?_, ?_, ?_, ?_, ?_⟩ <;>
      · cases hR : ti.isRemote <;>
          by_cases hchg : jsTrim rs.stdout = "" <;>
            cases os <;> cases opull <;>
              simp [hR, hchg, syncPrepLog, SyncLog.out, SyncLog.info, SyncLog.saveMem,
                List.getLast?_concat]
  · intro hmark
    unfold syncAfterPrepare syncGit
    simp only [hback, hrebase, hmark, Bool.false_eq_true, if_false, ite_false]
    refine ⟨?_, ?_, ?_, ?_, ?_⟩
    · rw [(syncCatch_fields _ _ _ _).1]
      simp [syncPrepLog]
    · rw [(syncCatch_fields _ _ _ _).2.2.1]
      simp [syncPrepLog, syncPrepVars]
    · rw [(syncCatch_fields _ _ _ _).2.1]
      simp [syncPrepLog]
    · exact (syncCatch_fields _ _ _ _).2.2.2.1
    · exact (syncCatch_fields _ _ _ _).2.2.2.2

/-- Concrete environment for the C3 witness: a sync of `feat` against
remote `origin/main`, clean working tree, rebase failing with markers
present. -/
def syncConflictEnv : SyncEnv where
  workspaceRoot? := some "/repo"
  git := fun args =>
    if args = ["rev-parse", "--absolute-git-dir"] then .ok ⟨"/repo/.git\n", ""⟩
    else if args = ["rev-parse", "--abbrev-ref", "HEAD"] then .ok ⟨"feat\n", ""⟩
    else if args = ["branch", "-a"] then .ok ⟨"* feat\n  remotes/origin/main", ""⟩
    else if args = ["rebase", "__gsp_sync_origin_main"] then
      .err "CONFLICT: could not apply abc123" "" ""
    else .ok ⟨"", ""⟩
  pick := fun _ => .one ⟨"origin/main (remote)", none, false⟩
  fileExists := fun p => p = "/repo/.git/rebase-merge"
  readFileUtf8 := fun _ => ""
  memento? := none

/-- Witness for C3: at the concrete conflicted remote sync, exactly one
memento with the expected five fields is persisted, the conflict info
message is shown, no error is reported, the run ends with the pause
trailer, and no push is issued. -/
theorem sync_rebase_conflict_pauses_witness :
    (runSyncFlow syncConflictEnv {}).mementoWrites
      = [some ⟨"/repo", "feat", false, "origin/main", some "__gsp_sync_origin_main"⟩] ∧
    (runSyncFlow syncConflictEnv {}).infos = [syncMessages.rebaseConflicts] ∧
    (runSyncFlow syncConflictEnv {}).errors = [] ∧
    (runSyncFlow syncConflictEnv {}).output.getLast? = some syncMessages.outputRebasePaused ∧
    ["push", "--force-with-lease"] ∉ (runSyncFlow syncConflictEnv {}).gitCalls := by
  have h := (sync_rebase_conflict_pauses syncConflictEnv "/repo" "/repo/.git" "feat"
    "CONFLICT: could not apply abc123"
    ⟨"/repo/.git\n", ""⟩ ⟨"", ""⟩ ⟨"feat\n", ""⟩ ⟨"* feat\n  remotes/origin/main", ""⟩
    ⟨"", ""⟩ ⟨"", ""⟩ ⟨"", ""⟩
    ⟨"origin/main (remote)", none, false⟩ ⟨"origin/main", "origin/main", true⟩
    (.ok ⟨"", ""⟩) (.ok ⟨"", ""⟩) "" ""
    rfl rfl (by decide) (by decide) (by decide) rfl (by decide) (by decide) (by decide)
    (by decide) rfl (by decide) (by decide) (by decide) (by decide) (by decide)
    (by decide) (by decide)).1 (by decide)
  simpa using h

/-! ## Claim C4: push-failure recovery -/

/-- C4.  Whenever the force-push step of a fresh sync fails, the engine
first persists the memento, then attempts the stash pop (iff a stash was
taken) and the temporary-branch deletion (iff the target was remote) as
independent best-effort steps — both commands appear in the trace
regardless of either outcome — re-persisting the memento after each
recovery that succeeds (`hasStash` flips to false after a successful
pop; `tempBranchToCleanup` is removed after a successful delete),
reports exactly the push error, and stops: the trace ends with the
recovery commands and the generic outer cleanup (checkout back,
temp-branch delete, stash recovery, error classification) does not
run. -/
theorem sync_push_failure_recovery (env : SyncEnv) (wr gd fb pmsg : String)
    (r0 rf rh rl rs rc rb rr : CommandResult) (si : SyncQuickItem) (ti : BranchItem)
    (os opull opop odel : ExecOutcome) (pso pse : String)
    (hwr : env.workspaceRoot? = some wr)
    (hgd : env.git ["rev-parse", "--absolute-git-dir"] = .ok r0)
    (htrim : jsTrim r0.stdout = gd) (hne : gd ≠ "")
    (hfetch : env.git ["fetch", "-p"] = .ok rf)
    (hhead : env.git ["rev-parse", "--abbrev-ref", "HEAD"] = .ok rh)
    (hfb : jsTrim rh.stdout = fb) (hfbne : fb ≠ "") (hfbH : fb ≠ "HEAD")
    (hlist : env.git ["branch", "-a"] = .ok rl)
    (hpick : env.pick (syncQuickItemsOf (parseBranches rl.stdout)) = .one si)
    (hfind : (parseBranches rl.stdout).find? (fun b => branchLabelOf b = si.label) = some ti)
    (hstatus : env.git ["status", "--porcelain", "-u"] = .ok rs)
    (hstash : env.git ["stash", "push", "-u", "-m", "gsp-sync-with-upstream"] = os)
    (hprep : env.git (if ti.isRemote then ["checkout", "-B", tempBranchFor ti.ref, ti.ref]
        else ["checkout", ti.ref]) = .ok rc)
    (hpull : env.git (if ti.isRemote then
        ["pull", jsSlice ti.ref 0 (jsIndexOfChar ti.ref '/'),
          jsSliceFrom ti.ref (jsIndexOfChar ti.ref '/' + 1)]
        else ["pull"]) = opull)
    (hback : env.git ["checkout", fb] = .ok rb)
    (hrebase : env.git ["rebase", if ti.isRemote then tempBranchFor ti.ref else ti.ref]
        = .ok rr)
    (hpush : env.git ["push", "--force-with-lease"] = .err pmsg pso pse)
    (hpop : env.git ["stash", "pop"] = opop)
    (hdel : env.git ["branch", "-D", tempBranchFor ti.ref] = odel) :
    (let hs := (syncPrepVars fb ti rs os).hasStash
     let m0 : SyncMemento := ⟨wr, fb, hs, ti.ref,
       if ti.isRemote then some (tempBranchFor ti.ref) else none⟩
     let mPop : SyncMemento :=
       if hs then
         (match opop with
          | .ok _ => { m0 with hasStash := false }
          | .err _ _ _ => m0)
       else m0
     (runSyncFlow env {}).gitCalls
        = (syncPrepLog wr ti rs os opull).gitCalls
          ++ [["checkout", fb],
              ["rebase", if ti.isRemote then tempBranchFor ti.ref else ti.ref],
              ["push", "--force-with-lease"]]
          ++ (if hs then [["stash", "pop"]] else [])
          ++ (if ti.isRemote then [["branch", "-D", tempBranchFor ti.ref]] else []) ∧
     (runSyncFlow env {}).mementoWrites
        = [some m0]
          ++ (if hs then
                (match opop with
                 | .ok _ => [some { m0 with hasStash := false }]
                 | .err _ _ _ => [])
              else [])
          ++ (if ti.isRemote then
                (match odel with
                 | .ok _ => [some { mPop with tempBranchToCleanup := none }]
                 | .err _ _ _ => [])
              else []) ∧
     (runSyncFlow env {}).errors = [syncMessages.pushFailed pmsg] ∧
     (runSyncFlow env {}).output.getLast? = some syncMessages.outputFailed ∧
     syncMessages.infoStateSavedForResume ∈ (runSyncFlow env {}).output) := by
  rw [runSyncFlow_reaches env wr gd fb r0 rf rh rl rs rc si ti os opull
    hwr hgd htrim hne hfetch hhead hfb hfbne hfbH hlist hpick hfind hstatus hstash
    hprep hpull]
  unfold syncAfterPrepare syncGit
  simp only [hback, hrebase, hpush, hpop, hdel]
  cases hR : ti.isRemote <;>
    by_cases hchg : jsTrim rs.stdout = "" <;>
      cases os <;> cases opop <;> cases odel <;>
        simp [hR, hchg, hback, hrebase, hpush, hpop, hdel, syncPrepLog, syncPrepVars,
          SyncLog.out, SyncLog.info, SyncLog.saveMem, SyncLog.err, syncCatch_skip,
          tempBranchFor_ne_empty, List.getLast?_concat, List.getLast?_append_cons,
          List.getLast?_cons]

/-- Concrete environment for the C4 witness: remote target, dirty
working tree (stash taken), push rejected, stash pop and temp-branch
deletion both succeeding. -/
def syncPushFailEnv : SyncEnv where
  workspaceRoot? := some "/repo"
  git := fun args =>
    if args = ["rev-parse", "--absolute-git-dir"] then .ok ⟨"/repo/.git\n", ""⟩
    else if args = ["rev-parse", "--abbrev-ref", "HEAD"] then .ok ⟨"feat\n", ""⟩
    else if args = ["branch", "-a"] then .ok ⟨"* feat\n  remotes/origin/main", ""⟩
    else if args = ["status", "--porcelain", "-u"] then .ok ⟨" M file.txt\n", ""⟩
    else if args = ["push", "--force-with-lease"] then .err "rejected" "" ""
    else .ok ⟨"", ""⟩
  pick := fun _ => .one ⟨"origin/main (remote)", none, false⟩
  fileExists := fun _ => false
  readFileUtf8 := fun _ => ""
  memento? := none

/-- Witness for C4: at the concrete rejected push, the memento is
persisted, then re-persisted after the successful pop (`hasStash` flips
to false) and after the successful delete (`tempBranchToCleanup`
removed); both recovery commands are attempted; the push error is the
only error; and the trace ends with the recovery commands. -/
theorem sync_push_failure_recovery_witness :
    (runSyncFlow syncPushFailEnv {}).mementoWrites
      = [some ⟨"/repo", "feat", true, "origin/main", some "__gsp_sync_origin_main"⟩,
         some ⟨"/repo", "feat", false, "origin/main", some "__gsp_sync_origin_main"⟩,
         some ⟨"/repo", "feat", false, "origin/main", none⟩] ∧
    (runSyncFlow syncPushFailEnv {}).errors = [syncMessages.pushFailed "rejected"] ∧
    (runSyncFlow syncPushFailEnv {}).gitCalls
      = [["rev-parse", "--absolute-git-dir"], ["fetch", "-p"],
         ["rev-parse", "--abbrev-ref", "HEAD"], ["branch", "-a"],
         ["status", "--porcelain", "-u"],
         ["stash", "push", "-u", "-m", "gsp-sync-with-upstream"],
         ["checkout", "-B", "__gsp_sync_origin_main", "origin/main"],
         ["pull", "origin", "main"], ["checkout", "feat"],
         ["rebase", "__gsp_sync_origin_main"], ["push", "--force-with-lease"],
         ["stash", "pop"], ["branch", "-D", "__gsp_sync_origin_main"]] := by
  have h := sync_push_failure_recovery syncPushFailEnv "/repo" "/repo/.git" "feat"
    "rejected"
    ⟨"/repo/.git\n", ""⟩ ⟨"", ""⟩ ⟨"feat\n", ""⟩ ⟨"* feat\n  remotes/origin/main", ""⟩
    ⟨" M file.txt\n", ""⟩ ⟨"", ""⟩ ⟨"", ""⟩ ⟨"", ""⟩
    ⟨"origin/main (remote)", none, false⟩ ⟨"origin/main", "origin/main", true⟩
    (.ok ⟨"", ""⟩) (.ok ⟨"", ""⟩) (.ok ⟨"", ""⟩) (.ok ⟨"", ""⟩) "" ""
    rfl rfl (by decide) (by decide) (by decide) rfl (by decide) (by decide) (by decide)
    (by decide) rfl (by decide) (by decide) (by decide) (by decide) (by decide)
    (by decide) (by decide) (by decide) (by decide) (by decide)
  refine ⟨?_, ?_, ?_⟩
  · have h2 := h.2.1
    simp only [syncPrepVars] at h2
    simpa using h2
  · exact h.2.2.1
  · have h1 := h.1
    simp only [syncPrepVars, syncPrepLog] at h1
    simpa using h1

/-! ## Claim C5: post-push local-branch reconciliation -/

/-- C5.  After a successful push in a sync that targeted a remote ref,
the exact command trace shows the reconciliation policy: the temporary
branch is deleted; then, when the upstream's local name equals the
feature branch, the reconciliation is skipped entirely (no further
command); otherwise a read-only `rev-parse --verify` probes the local
branch, and only when it does not exist is the plain non-forced
`branch <name> <remote-ref>` issued — when it exists, no branch command
touches it. -/
theorem sync_post_push_reconciliation (env : SyncEnv) (wr gd fb : String)
    (r0 rf rh rl rs rc rb rr rp rd rpo : CommandResult) (si : SyncQuickItem)
    (ti : BranchItem) (os opull overify ocreate : ExecOutcome)
    (hwr : env.workspaceRoot? = some wr)
    (hgd : env.git ["rev-parse", "--absolute-git-dir"] = .ok r0)
    (htrim : jsTrim r0.stdout = gd) (hne : gd ≠ "")
    (hfetch : env.git ["fetch", "-p"] = .ok rf)
    (hhead : env.git ["rev-parse", "--abbrev-ref", "HEAD"] = .ok rh)
    (hfb : jsTrim rh.stdout = fb) (hfbne : fb ≠ "") (hfbH : fb ≠ "HEAD")
    (hlist : env.git ["branch", "-a"] = .ok rl)
    (hpick : env.pick (syncQuickItemsOf (parseBranches rl.stdout)) = .one si)
    (hfind : (parseBranches rl.stdout).find? (fun b => branchLabelOf b = si.label) = some ti)
    (hR : ti.isRemote = true)
    (hstatus : env.git ["status", "--porcelain", "-u"] = .ok rs)
    (hstash : env.git ["stash", "push", "-u", "-m", "gsp-sync-with-upstream"] = os)
    (hprep : env.git ["checkout", "-B", tempBranchFor ti.ref, ti.ref] = .ok rc)
    (hpull : env.git ["pull", jsSlice ti.ref 0 (jsIndexOfChar ti.ref '/'),
        jsSliceFrom ti.ref (jsIndexOfChar ti.ref '/' + 1)] = opull)
    (hback : env.git ["checkout", fb] = .ok rb)
    (hrebase : env.git ["rebase", tempBranchFor ti.ref] = .ok rr)
    (hpush : env.git ["push", "--force-with-lease"] = .ok rp)
    (hdel : env.git ["branch", "-D", tempBranchFor ti.ref] = .ok rd)
    (hverify : env.git ["rev-parse", "--verify", "refs/heads/"
        ++ (if jsIndexOfChar ti.ref '/' > 0
            then jsSliceFrom ti.ref (jsIndexOfChar ti.ref '/' + 1) else ti.ref)]
        = overify)
    (hcreate : env.git ["branch",
        (if jsIndexOfChar ti.ref '/' > 0
            then jsSliceFrom ti.ref (jsIndexOfChar ti.ref '/' + 1) else ti.ref),
        ti.ref] = ocreate)
    (hpop : env.git ["stash", "pop"] = .ok rpo) :
    (let lu := if jsIndexOfChar ti.ref '/' > 0
        then jsSliceFrom ti.ref (jsIndexOfChar ti.ref '/' + 1) else ti.ref
     (runSyncFlow env {}).gitCalls
        = (syncPrepLog wr ti rs os opull).gitCalls
          ++ [["checkout", fb], ["rebase", tempBranchFor ti.ref],
              ["push", "--force-with-lease"], ["branch", "-D", tempBranchFor ti.ref]]
          ++ (if lu = fb then []
              else [["rev-parse", "--verify", "refs/heads/" ++ lu]]
                ++ (match overify with
                    | .ok _ => []
                    | .err _ _ _ => [["branch", lu, ti.ref]]))
          ++ (if (syncPrepVars fb ti rs os).hasStash then [["stash", "pop"]] else [])) := by
  rw [runSyncFlow_reaches env wr gd fb r0 rf rh rl rs rc si ti os opull
    hwr hgd htrim hne hfetch hhead hfb hfbne hfbH hlist hpick hfind hstatus hstash
    (by rw [hR]; simpa using hprep) (by rw [hR]; simpa using hpull)]
  unfold syncAfterPrepare syncGit
  simp only [hback, hR, hrebase, hpush, hdel, hpop, if_true, ite_true]
  by_cases hlu : (if jsIndexOfChar ti.ref '/' > 0
      then jsSliceFrom ti.ref (jsIndexOfChar ti.ref '/' + 1) else ti.ref) = fb
  · by_cases hchg : jsTrim rs.stdout = "" <;> cases os <;>
      simp [hlu, hchg, hback, hrebase, hpush, hdel, hpop, syncPrepLog, syncPrepVars,
        SyncLog.out, SyncLog.info, SyncLog.saveMem, SyncLog.err]
  · cases overify with
    | ok vr =>
        by_cases hchg : jsTrim rs.stdout = "" <;> cases os <;>
          simp [hlu, hchg, hverify, syncPrepLog, syncPrepVars,
            SyncLog.out, SyncLog.info, SyncLog.saveMem, SyncLog.err]
    | err vm vs ve =>
        cases ocreate with
        | ok cr =>
            by_cases hchg : jsTrim rs.stdout = "" <;> cases os <;>
              simp [hlu, hchg, hverify, hcreate, syncPrepLog, syncPrepVars,
                SyncLog.out, SyncLog.info, SyncLog.saveMem, SyncLog.err]
        | err cm cs ce =>
            by_cases hchg : jsTrim rs.stdout = "" <;> cases os <;>
              simp [hlu, hchg, hverify, hcreate, syncPrepLog, syncPrepVars,
                SyncLog.out, SyncLog.info, SyncLog.saveMem, SyncLog.err]

/-- Concrete environment for the C5 witness: remote `origin/main`
synced from `feat`, clean tree, push succeeding, local `main` absent
(`rev-parse --verify` fails), creation succeeding. -/
def syncReconcileEnv : SyncEnv where
  workspaceRoot? := some "/repo"
  git := fun args =>
    if args = ["rev-parse", "--absolute-git-dir"] then .ok ⟨"/repo/.git\n", ""⟩
    else if args = ["rev-parse", "--abbrev-ref", "HEAD"] then .ok ⟨"feat\n", ""⟩
    else if args = ["branch", "-a"] then .ok ⟨"* feat\n  remotes/origin/main", ""⟩
    else if args = ["rev-parse", "--verify", "refs/heads/main"] then
      .err "fatal: needed a single revision" "" ""
    else .ok ⟨"", ""⟩
  pick := fun _ => .one ⟨"origin/main (remote)", none, false⟩
  fileExists := fun _ => false
  readFileUtf8 := fun _ => ""
  memento? := none

/-- Witness for C5: at the concrete environment whose local counterpart
`main` does not exist, the trace ends with the temp-branch deletion, the
read-only probe, and the plain non-forced `branch main origin/main` —
and contains no forced branch update. -/
theorem sync_post_push_reconciliation_witness :
    (runSyncFlow syncReconcileEnv {}).gitCalls
      = [["rev-parse", "--absolute-git-dir"], ["fetch", "-p"],
         ["rev-parse", "--abbrev-ref", "HEAD"], ["branch", "-a"],
         ["status", "--porcelain", "-u"],
         ["checkout", "-B", "__gsp_sync_origin_main", "origin/main"],
         ["pull", "origin", "main"], ["checkout", "feat"],
         ["rebase", "__gsp_sync_origin_main"], ["push", "--force-with-lease"],
         ["branch", "-D", "__gsp_sync_origin_main"],
         ["rev-parse", "--verify", "refs/heads/main"],
         ["branch", "main", "origin/main"]] := by
  have h := sync_post_push_reconciliation syncReconcileEnv "/repo" "/repo/.git" "feat"
    ⟨"/repo/.git\n", ""⟩ ⟨"", ""⟩ ⟨"feat\n", ""⟩ ⟨"* feat\n  remotes/origin/main", ""⟩
    ⟨"", ""⟩ ⟨"", ""⟩ ⟨"", ""⟩ ⟨"", ""⟩ ⟨"", ""⟩ ⟨"", ""⟩ ⟨"", ""⟩
    ⟨"origin/main (remote)", none, false⟩ ⟨"origin/main", "origin/main", true⟩
    (.ok ⟨"", ""⟩) (.ok ⟨"", ""⟩)
    (.err "fatal: needed a single revision" "" "") (.ok ⟨"", ""⟩)
    rfl rfl (by decide) (by decide) (by decide) rfl (by decide) (by decide) (by decide)
    (by decide) rfl (by decide) (by decide) (by decide) (by decide) (by decide)
    (by decide) (by decide) (by decide) (by decide) (by decide) (by decide) (by decide)
    (by decide)
  exact h

/-! ## Claim C1: classification of gone branches in `git branch -vv` output

A well-formed `git branch -vv` line is modelled from its components:
current-branch marker, branch name, abbreviated commit hash, tracking
annotation in brackets, and commit subject.  The structural
wellformedness conditions reflect what git can actually print: a branch
name is a valid refname (git forbids whitespace, `*`, `[` and `]` in
refnames), the hash is hexadecimal (no whitespace or `]`), the bracketed
tracking text contains no brackets of its own, and all components are
newline-free.  The commit subject, however, is arbitrary user text. -/

/-- One structured `git branch -vv` line. -/
structure VvLine where
  isCurrent : Bool
  name : List Char
  sha : List Char
  ann : List Char
  subject : List Char

/-- Renders a structured line the way `git branch -vv` prints it. -/
def renderVvLine (r : VvLine) : List Char :=
  (if r.isCurrent then ['*', ' '] else [' ', ' '])
    ++ r.name ++ [' '] ++ r.sha ++ [' ', '['] ++ r.ann ++ [']', ' '] ++ r.subject

/-- Renders a whole `-vv` output: lines joined by newlines. -/
def renderVvOutput (rs : List VvLine) : List Char :=
  List.intercalate ['\n'] (rs.map renderVvLine)

/-- The tracking annotation as it appears in the line, brackets
included. -/
def bracketedAnn (r : VvLine) : List Char := '[' :: (r.ann ++ [']'])

/-- Structural wellformedness of a `-vv` line: the branch name is a
non-empty valid refname, the hash and annotation are bracket- and
newline-clean, and no component contains a newline.  The commit subject
is unconstrained. -/
def WellFormedVvBasic (r : VvLine) : Prop :=
  r.name ≠ [] ∧
  (∀ c ∈ r.name, isJsWs c = false ∧ c ≠ '*' ∧ c ≠ '[' ∧ c ≠ ']') ∧
  (∀ c ∈ r.sha, isJsWs c = false ∧ c ≠ ']') ∧
  (∀ c ∈ r.ann, c ≠ '[' ∧ c ≠ ']' ∧ c ≠ '\n') ∧
  '\n' ∉ r.subject

instance (r : VvLine) : Decidable (WellFormedVvBasic r) := by
  unfold WellFormedVvBasic
  infer_instance

/-- Full wellformedness: additionally, the commit subject does not
itself contain the `": gone]"` marker. -/
def WellFormedVv (r : VvLine) : Prop :=
  WellFormedVvBasic r ∧ seqContains goneMark r.subject = false

instance (r : VvLine) : Decidable (WellFormedVv r) := by
  unfold WellFormedVv
  infer_instance

/-- The claim C1 as stated: on every well-formed `-vv` output, a line is
classified gone by `parseGoneBranches` iff its bracketed tracking
annotation contains the substring `": gone]"`, with the `* ` marker
stripped before the name is extracted (so the classified names are
exactly the names of the gone-annotated records). -/
def claimC1 : Prop :=
  ∀ rs : List VvLine, (∀ r ∈ rs, WellFormedVvBasic r) →
    parseGoneBranchesL (renderVvOutput rs)
      = ((rs.filter (fun r => seqContains goneMark (bracketedAnn r))).map (fun r => r.name))

/-- The counterexample record: annotation `origin/a: ahead 1` (not
gone), commit subject `fix: gone] oops` containing the marker. -/
def vvBadLine : VvLine :=
  ⟨true, ['a'], ['1'], ['o', 'r', 'i', 'g', 'i', 'n', '/', 'a', ':', ' ', 'a', 'h', 'e', 'a', 'd', ' ', '1'],
    ['f', 'i', 'x', ':', ' ', 'g', 'o', 'n', 'e', ']', ' ', 'o', 'o', 'p', 's']⟩

/-- Counterexample to C1 as stated: `parseGoneBranches` filters on the
whole line, so the line `* a 1 [origin/a: ahead 1] fix: gone] oops` —
whose annotation says ahead, but whose commit subject contains
`": gone]"` — is classified gone. -/
theorem parseGoneBranches_subject_refutes_C1 : ¬ claimC1 := by
  intro h
  have := h [vvBadLine] (by decide)
  revert this
  decide

/-! ### Substring and trimming infrastructure for the amended C1 -/

/-- `seqContains` decides the contiguous-substring (infix) relation. -/
theorem seqContains_iff (pat l : List Char) : seqContains pat l = true ↔ pat <:+: l := by
  induction l with
  | nil =>
      cases pat <;> simp [seqContains, List.isPrefixOf]
  | cons c tl ih =>
      simp [seqContains, List.infix_cons_iff, ih, Bool.or_eq_true,
        List.isPrefixOf_iff_prefix]

/-- Right trim over a character list (the trailing half of `trim`). -/
def rtrimL (l : List Char) : List Char := (l.reverse.dropWhile isJsWs).reverse

/-- `jsTrimL` is the right trim of the left trim. -/
theorem jsTrimL_eq_rtrim_dropWhile (l : List Char) :
    jsTrimL l = rtrimL (l.dropWhile isJsWs) := rfl

/-- The right trim of a list is a prefix of it. -/
theorem rtrimL_isPrefix (l : List Char) : rtrimL l <+: l := by
  have h := List.dropWhile_suffix (l := l.reverse) isJsWs
  have h2 := List.reverse_prefix.mpr h
  simpa [rtrimL] using h2

/-- Right-trimming a list that continues, after a `]`, with arbitrary
text only trims within the trailing text. -/
theorem rtrimL_after_bracket (P y : List Char) :
    rtrimL ((P ++ [']']) ++ y) = (P ++ [']']) ++ rtrimL y := by
  unfold rtrimL
  rw [List.reverse_append, List.dropWhile_append]
  split
  case isTrue h =>
      rw [List.isEmpty_iff] at h
      simp only [List.reverse_append, List.reverse_cons, List.reverse_nil,
        List.nil_append, List.singleton_append]
      rw [List.dropWhile_cons_of_neg (by decide)]
      simp [h]
  case isFalse h =>
      simp

/-- Trimming a well-formed rendered line: the non-current two-space
indent is dropped, the current marker `* ` survives (it starts with a
non-space), and only trailing whitespace of the subject is removed. -/
theorem jsTrimL_render (r : VvLine) (h : WellFormedVvBasic r) :
    jsTrimL (renderVvLine r)
      = (if r.isCurrent then ['*', ' '] else [])
        ++ (((r.name ++ ' ' :: r.sha ++ ' ' :: '[' :: r.ann) ++ [']'])
            ++ rtrimL (' ' :: r.subject)) := by
  obtain ⟨hne, hname, _, _, _⟩ := h
  have hrender : renderVvLine r
      = (if r.isCurrent then ['*', ' '] else [' ', ' '])
        ++ (((r.name ++ ' ' :: r.sha ++ ' ' :: '[' :: r.ann) ++ [']'])
            ++ (' ' :: r.subject)) := by
    simp [renderVvLine, List.append_assoc]
  obtain ⟨hd, tl, hnameEq⟩ := List.exists_cons_of_ne_nil hne
  have hhd : isJsWs hd = false := (hname hd (by rw [hnameEq]; exact List.mem_cons_self hd tl)).1
  rw [jsTrimL_eq_rtrim_dropWhile, hrender]
  cases hcur : r.isCurrent with
  | true =>
      simp only [if_true, ite_true]
      rw [show (['*', ' '] : List Char)
            ++ (((r.name ++ ' ' :: r.sha ++ ' ' :: '[' :: r.ann) ++ [']'])
                ++ (' ' :: r.subject))
          = '*' :: (' ' :: ((r.name ++ ' ' :: r.sha ++ ' ' :: '[' :: r.ann) ++ [']'])
                ++ (' ' :: r.subject)) by simp]
      rw [List.dropWhile_cons_of_neg (by decide)]
      rw [show '*' :: (' ' :: ((r.name ++ ' ' :: r.sha ++ ' ' :: '[' :: r.ann) ++ [']'])
                ++ (' ' :: r.subject))
          = ((('*' :: ' ' :: r.name ++ ' ' :: r.sha ++ ' ' :: '[' :: r.ann) ++ [']'])
                ++ (' ' :: r.subject)) by simp]
      rw [rtrimL_after_bracket]
      simp
  | false =>
      simp only [ite_false, Bool.false_eq_true]
      rw [show ([' ', ' '] : List Char)
            ++ (((r.name ++ ' ' :: r.sha ++ ' ' :: '[' :: r.ann) ++ [']'])
                ++ (' ' :: r.subject))
          = ' ' :: ' ' :: (((r.name ++ ' ' :: r.sha ++ ' ' :: '[' :: r.ann) ++ [']'])
                ++ (' ' :: r.subject)) by simp]
      rw [List.dropWhile_cons_of_pos (by decide), List.dropWhile_cons_of_pos (by decide)]
      rw [hnameEq]
      rw [show (((hd :: tl ++ ' ' :: r.sha ++ ' ' :: '[' :: r.ann) ++ [']'])
                ++ (' ' :: r.subject))
          = hd :: (((tl ++ ' ' :: r.sha ++ ' ' :: '[' :: r.ann) ++ [']'])
                ++ (' ' :: r.subject)) by simp]
      rw [List.dropWhile_cons_of_neg (by simp [hhd])]
      rw [show hd :: (((tl ++ ' ' :: r.sha ++ ' ' :: '[' :: r.ann) ++ [']'])
                ++ (' ' :: r.subject))
          = (((hd :: tl ++ ' ' :: r.sha ++ ' ' :: '[' :: r.ann) ++ [']'])
                ++ (' ' :: r.subject)) by simp]
      rw [rtrimL_after_bracket]
      simp [hnameEq]

/-- Splitting the gone marker at its unique `]`: if
`a ++ ']' :: yt = ": gone]"` then `a = ": gone"` and `yt = []`. -/
theorem goneMark_split (a yt : List Char) (h : a ++ ']' :: yt = goneMark) :
    a = [':', ' ', 'g', 'o', 'n', 'e'] ∧ yt = [] := by
  rcases a with _ | ⟨c1, _ | ⟨c2, _ | ⟨c3, _ | ⟨c4, _ | ⟨c5, _ | ⟨c6, _ | ⟨c7, rest⟩⟩⟩⟩⟩⟩⟩ <;>
    simp_all [goneMark]

/-- The bracketed annotation `[ann]` contains `": gone]"` iff the inner
annotation text ends with `": gone"` (for bracket-free annotation
text). -/
theorem bracketedAnn_gone_iff (ann : List Char)
    (h1 : ('[' : Char) ∉ ann) (h2 : (']' : Char) ∉ ann) :
    goneMark <:+: ('[' :: (ann ++ [']'])) ↔
      ∃ e, ann = e ++ [':', ' ', 'g', 'o', 'n', 'e'] := by
  constructor
  · rintro ⟨a, b, hab⟩
    have hab' : a ++ (goneMark ++ b) = ('[' :: ann) ++ [']'] := by
      simpa [List.append_assoc] using hab
    rcases List.append_eq_append_iff.mp hab' with ⟨u, hu1, hu2⟩ | ⟨v, hv1, hv2⟩
    · rcases List.append_eq_append_iff.mp hu2 with ⟨s, hs1, hs2⟩ | ⟨t, ht1, ht2⟩
      · exfalso
        have hm : (']' : Char) ∈ ('[' :: ann) := by
          rw [hu1, hs1]
          simp [goneMark]
        simp at hm
        exact h2 hm
      · cases t with
        | nil =>
            exfalso
            simp only [List.append_nil] at ht1
            have hm : (']' : Char) ∈ ('[' :: ann) := by
              rw [hu1, ← ht1]
              simp [goneMark]
            simp at hm
            exact h2 hm
        | cons th tt =>
            obtain ⟨hth, htt⟩ := List.cons.inj ht2.symm
            obtain ⟨hu, htt0⟩ := goneMark_split u tt (by
              rw [← hth]
              exact ht1.symm)
            rw [hu] at hu1
            cases a with
            | nil => simp [List.cons.injEq] at hu1
            | cons ah at' =>
                obtain ⟨hah, hta⟩ := List.cons.inj hu1
                exact ⟨at', hta⟩
    · exfalso
      have := congrArg List.length hv2
      simp [goneMark] at this
      omega
  · rintro ⟨e, he⟩
    refine ⟨'[' :: e, [], by simp [he, goneMark, List.append_assoc]⟩

/-- Occurrence analysis in a trimmed line `P ++ ']' :: S` whose head `P`
(everything through the annotation text) is `]`-free, whose tail `S` is
a prefix of the space-separated commit subject, and whose subject does
not contain the marker: the line contains `": gone]"` iff the
annotation text ends with `": gone"`. -/
theorem gone_in_line_iff (P S subject ann Q : List Char)
    (hP : (']' : Char) ∉ P)
    (hPsplit : P = Q ++ '[' :: ann)
    (hS : S <+: ' ' :: subject)
    (hsub : seqContains goneMark subject = false) :
    (goneMark <:+: (P ++ ']' :: S)) ↔
      ∃ e, ann = e ++ [':', ' ', 'g', 'o', 'n', 'e'] := by
  constructor
  · rintro ⟨a, b, hab⟩
    have hab' : a ++ (goneMark ++ b) = P ++ ']' :: S := by
      simpa [List.append_assoc] using hab
    rcases List.append_eq_append_iff.mp hab' with ⟨u, hu1, hu2⟩ | ⟨v, hv1, hv2⟩
    · rcases List.append_eq_append_iff.mp hu2 with ⟨s, hs1, hs2⟩ | ⟨t, ht1, ht2⟩
      · exfalso
        apply hP
        rw [hu1, hs1]
        simp [goneMark]
      · cases t with
        | nil =>
            exfalso
            apply hP
            simp only [List.append_nil] at ht1
            rw [hu1, ← ht1]
            simp [goneMark]
        | cons th tt =>
            obtain ⟨hth, htt⟩ := List.cons.inj ht2.symm
            obtain ⟨hu, htt0⟩ := goneMark_split u tt (by
              rw [← hth]
              exact ht1.symm)
            rw [hu, hPsplit] at hu1
            rcases List.append_eq_append_iff.mp hu1.symm with ⟨x, hx1, hx2⟩ | ⟨y, hy1, hy2⟩
            · exfalso
              have : ('[' : Char) ∈ ([':', ' ', 'g', 'o', 'n', 'e'] : List Char) := by
                rw [hx2]
                simp
              simp at this
            · cases y with
              | nil => simp [List.cons.injEq] at hy2
              | cons yh yt' =>
                  obtain ⟨hyh, hyt⟩ := List.cons.inj hy2
                  exact ⟨yt', hyt⟩
    · cases v with
      | nil =>
          exfalso
          simp only [List.nil_append] at hv2
          have := List.cons.inj hv2.symm
          simp [goneMark, List.cons.injEq] at this
      | cons vh vt =>
          exfalso
          obtain ⟨hvh, hvt⟩ := List.cons.inj hv2
          have hinf : goneMark <:+: S := ⟨vt, b, by rw [hvt]; simp [List.append_assoc]⟩
          have hinf2 : goneMark <:+: (' ' :: subject) := hinf.trans hS.isInfix
          rcases List.infix_cons_iff.mp hinf2 with hpre | hinf3
          · rw [show goneMark = ':' :: [' ', 'g', 'o', 'n', 'e', ']'] from rfl] at hpre
            have hch := (List.cons_prefix_cons.mp hpre).1
            simp at hch
          · rw [← seqContains_iff] at hinf3
            simp [hsub] at hinf3
  · rintro ⟨e, he⟩
    refine ⟨Q ++ '[' :: e, S, ?_⟩
    rw [hPsplit, he]
    simp [goneMark, List.append_assoc]

/-- A well-formed rendered line contains no newline. -/
theorem newline_not_mem_render (r : VvLine) (h : WellFormedVvBasic r) :
    ('\n' : Char) ∉ renderVvLine r := by
  obtain ⟨hne, hname, hsha, hann, hnl⟩ := h
  have k1 : ('\n' : Char) ∉ r.name := fun hc => absurd (hname _ hc).1 (by decide)
  have k2 : ('\n' : Char) ∉ r.sha := fun hc => absurd (hsha _ hc).1 (by decide)
  have k3 : ('\n' : Char) ∉ r.ann := fun hc => (hann _ hc).2.2 rfl
  cases hcur : r.isCurrent <;>
    simp [renderVvLine, hcur, k1, k2, k3, hnl]

/-- Classification of a well-formed trimmed line: it contains `": gone]"`
iff its bracketed annotation does. -/
theorem seqContains_trim_render (r : VvLine) (h : WellFormedVv r) :
    seqContains goneMark (jsTrimL (renderVvLine r))
      = seqContains goneMark (bracketedAnn r) := by
  have hb := h.1
  have hsub := h.2
  obtain ⟨hne, hname, hsha, hann, hnl⟩ := h.1
  rw [Bool.eq_iff_iff, seqContains_iff, seqContains_iff]
  rw [jsTrimL_render r hb]
  have hT : (if r.isCurrent then ['*', ' '] else [])
        ++ (((r.name ++ ' ' :: r.sha ++ ' ' :: '[' :: r.ann) ++ [']'])
            ++ rtrimL (' ' :: r.subject))
      = ((if r.isCurrent then ['*', ' '] else [])
          ++ (r.name ++ ' ' :: r.sha ++ ' ' :: '[' :: r.ann))
        ++ ']' :: rtrimL (' ' :: r.subject) := by
    simp [List.append_assoc]
  rw [hT]
  have hPne : (']' : Char) ∉ (if r.isCurrent then ['*', ' '] else [])
      ++ (r.name ++ ' ' :: r.sha ++ ' ' :: '[' :: r.ann) := by
    have j1 : (']' : Char) ∉ r.name := fun hc => (hname _ hc).2.2.2 rfl
    have j2 : (']' : Char) ∉ r.sha := fun hc => (hsha _ hc).2 rfl
    have j3 : (']' : Char) ∉ r.ann := fun hc => (hann _ hc).2.1 rfl
    cases hcur : r.isCurrent <;> simp [hcur, j1, j2, j3]
  rw [gone_in_line_iff
    ((if r.isCurrent then ['*', ' '] else []) ++ (r.name ++ ' ' :: r.sha ++ ' ' :: '[' :: r.ann))
    (rtrimL (' ' :: r.subject)) r.subject r.ann
    ((if r.isCurrent then ['*', ' '] else []) ++ r.name ++ ' ' :: r.sha ++ [' '])
    hPne (by simp [List.append_assoc]) (rtrimL_isPrefix _) hsub]
  exact (bracketedAnn_gone_iff r.ann (fun hm => (hann _ hm).1 rfl)
    (fun hm => (hann _ hm).2.1 rfl)).symm

/-- Reduction of `stripStarMarker` on a line starting with `*`. -/
theorem stripStarMarker_star (d : Char) (rest : List Char) :
    stripStarMarker ('*' :: d :: rest)
      = if isJsWs d then (d :: rest).dropWhile isJsWs else '*' :: d :: rest := rfl

/-- `stripStarMarker` leaves a list alone unless it starts with `*`. -/
theorem stripStarMarker_of_head_ne (l : List Char) (h : l.head? ≠ some '*') :
    stripStarMarker l = l := by
  match l with
  | [] => rfl
  | [c] =>
      unfold stripStarMarker
      split
      · next heq => simp at heq
      · rfl
  | c :: d :: rest =>
      unfold stripStarMarker
      split
      · next heq => exact absurd (List.cons.inj heq).1 (by simpa using h)
      · rfl

/-- Reduction of `firstWsField` on a non-empty list. -/
theorem firstWsField_cons (c : Char) (rest : List Char) :
    firstWsField (c :: rest)
      = if isJsWs c then [] else (c :: rest).takeWhile (fun d => !isJsWs d) := rfl

/-- Extraction on a well-formed trimmed line yields the branch name:
the `* ` current-branch marker is stripped, and the first
whitespace-separated field is the name. -/
theorem extract_trim_render (r : VvLine) (h : WellFormedVvBasic r) :
    firstWsField (stripStarMarker (jsTrimL (renderVvLine r))) = r.name := by
  obtain ⟨hne, hname, hsha, hann, hnl⟩ := h
  rw [jsTrimL_render r ⟨hne, hname, hsha, hann, hnl⟩]
  obtain ⟨hd, tl, hnameEq⟩ := List.exists_cons_of_ne_nil hne
  have hhd : isJsWs hd = false :=
    (hname hd (by rw [hnameEq]; exact List.mem_cons_self hd tl)).1
  have hfield : firstWsField
      ((r.name ++ ' ' :: r.sha ++ ' ' :: '[' :: r.ann ++ [']'])
        ++ rtrimL (' ' :: r.subject)) = r.name := by
    rw [show (r.name ++ ' ' :: r.sha ++ ' ' :: '[' :: r.ann ++ [']'])
          ++ rtrimL (' ' :: r.subject)
        = r.name ++ (' ' :: (r.sha ++ ' ' :: '[' :: r.ann ++ [']']
            ++ rtrimL (' ' :: r.subject))) by simp [List.append_assoc]]
    rw [hnameEq, List.cons_append, firstWsField_cons]
    rw [if_neg (by simp [hhd])]
    rw [← List.cons_append, ← hnameEq]
    rw [List.takeWhile_append_of_pos (by
      intro c hc
      simp [(hname c hc).1])]
    rw [List.takeWhile_cons_of_neg (by decide)]
    simp
  cases hcur : r.isCurrent with
  | true =>
      simp only [if_true, ite_true]
      rw [show (['*', ' '] : List Char)
            ++ (((r.name ++ ' ' :: r.sha ++ ' ' :: '[' :: r.ann) ++ [']'])
                ++ rtrimL (' ' :: r.subject))
          = '*' :: ' ' :: ((r.name ++ ' ' :: r.sha ++ ' ' :: '[' :: r.ann ++ [']'])
                ++ rtrimL (' ' :: r.subject)) by simp [List.append_assoc]]
      rw [stripStarMarker_star]
      rw [if_pos (by decide)]
      rw [List.dropWhile_cons_of_pos (by decide)]
      rw [show ((r.name ++ ' ' :: r.sha ++ ' ' :: '[' :: r.ann ++ [']'])
                ++ rtrimL (' ' :: r.subject))
          = hd :: ((tl ++ ' ' :: r.sha ++ ' ' :: '[' :: r.ann ++ [']'])
                ++ rtrimL (' ' :: r.subject)) by rw [hnameEq]; simp [List.append_assoc]]
      rw [List.dropWhile_cons_of_neg (by simp [hhd])]
      rw [show hd :: ((tl ++ ' ' :: r.sha ++ ' ' :: '[' :: r.ann ++ [']'])
                ++ rtrimL (' ' :: r.subject))
          = ((r.name ++ ' ' :: r.sha ++ ' ' :: '[' :: r.ann ++ [']'])
                ++ rtrimL (' ' :: r.subject)) by rw [hnameEq]; simp [List.append_assoc]]
      exact hfield
  | false =>
      simp only [ite_false, Bool.false_eq_true]
      rw [List.nil_append]
      rw [stripStarMarker_of_head_ne _ (by
        rw [show ((r.name ++ ' ' :: r.sha ++ ' ' :: '[' :: r.ann) ++ [']'])
              ++ rtrimL (' ' :: r.subject)
            = hd :: ((tl ++ ' ' :: r.sha ++ ' ' :: '[' :: r.ann ++ [']'])
                  ++ rtrimL (' ' :: r.subject)) by rw [hnameEq]; simp [List.append_assoc]]
        have : hd ≠ '*' := (hname hd (by rw [hnameEq]; exact List.mem_cons_self hd tl)).2.1
        simpa using this)]
      rw [show ((r.name ++ ' ' :: r.sha ++ ' ' :: '[' :: r.ann) ++ [']'])
            ++ rtrimL (' ' :: r.subject)
          = (r.name ++ ' ' :: r.sha ++ ' ' :: '[' :: r.ann ++ [']'])
            ++ rtrimL (' ' :: r.subject) by simp [List.append_assoc]]
      exact hfield

/-- List-level assembly of the amended C1: on a well-formed rendering,
`parseGoneBranches` returns exactly the names of the records whose
bracketed annotation contains `": gone]"`. -/
theorem parseGoneBranchesL_renders (rs : List VvLine) (h : ∀ r ∈ rs, WellFormedVv r) :
    parseGoneBranchesL (renderVvOutput rs)
      = ((rs.filter (fun r => seqContains goneMark (bracketedAnn r))).map
          (fun r => r.name)) := by
  rcases rs with _ | ⟨r0, rs'⟩
  · rfl
  · have hsplit : (renderVvOutput (r0 :: rs')).splitOn '\n'
        = (r0 :: rs').map renderVvLine := by
      apply List.splitOn_intercalate
      · intro l hl
        obtain ⟨r, hr, rfl⟩ := List.mem_map.mp hl
        exact newline_not_mem_render r (h r hr).1
      · simp
    have e2 : List.filter (fun line => seqContains goneMark line)
        (List.map (jsTrimL ∘ renderVvLine) (r0 :: rs'))
        = List.map (jsTrimL ∘ renderVvLine)
            (List.filter (fun r => seqContains goneMark (bracketedAnn r)) (r0 :: rs')) := by
      rw [List.filter_map]
      exact congrArg _ (List.filter_congr (fun r hr => by
        simp only [Function.comp]
        exact seqContains_trim_render r (h r hr)))
    have e3 : List.map (fun line => firstWsField (stripStarMarker line))
        (List.map (jsTrimL ∘ renderVvLine)
          (List.filter (fun r => seqContains goneMark (bracketedAnn r)) (r0 :: rs')))
        = List.map (fun r : VvLine => r.name)
            (List.filter (fun r => seqContains goneMark (bracketedAnn r)) (r0 :: rs')) := by
      rw [List.map_map]
      exact List.map_congr_left (fun r hr => by
        simp only [Function.comp]
        exact extract_trim_render r (h r (List.mem_of_mem_filter hr)).1)
    have e4 : List.filter (fun name => !(['['].isPrefixOf name))
        (List.map (fun r : VvLine => r.name)
          (List.filter (fun r => seqContains goneMark (bracketedAnn r)) (r0 :: rs')))
        = List.map (fun r : VvLine => r.name)
            (List.filter (fun r => seqContains goneMark (bracketedAnn r)) (r0 :: rs')) := by
      rw [List.filter_map]
      rw [List.filter_congr (q := fun _ => true) (fun r hr => by
        have hwf := (h r (List.mem_of_mem_filter hr)).1
        obtain ⟨hne, hname, _, _, _⟩ := hwf
        obtain ⟨hd, tl, hnameEq⟩ := List.exists_cons_of_ne_nil hne
        have hbr : hd ≠ '[' :=
          (hname hd (by rw [hnameEq]; exact List.mem_cons_self hd tl)).2.2.1
        simp [Function.comp, hnameEq, List.isPrefixOf, Ne.symm hbr])]
      rw [List.filter_true]
    have e5 : List.filter (fun name : List Char => name.length > 0)
        (List.map (fun r : VvLine => r.name)
          (List.filter (fun r => seqContains goneMark (bracketedAnn r)) (r0 :: rs')))
        = List.map (fun r : VvLine => r.name)
            (List.filter (fun r => seqContains goneMark (bracketedAnn r)) (r0 :: rs')) := by
      rw [List.filter_map]
      rw [List.filter_congr (q := fun _ => true) (fun r hr => by
        have hne := (h r (List.mem_of_mem_filter hr)).1.1
        simp [Function.comp, List.length_pos, hne])]
      rw [List.filter_true]
    unfold parseGoneBranchesL
    rw [hsplit, List.map_map, e2, e3, e4, e5]

/-- C1 (amended).  On every well-formed `git branch -vv` output — valid
refnames and hashes, bracket-free annotation text, and commit subjects
that do not themselves contain `": gone]"` — a line is classified gone
by `parseGoneBranches` iff its bracketed tracking annotation contains
the substring `": gone]"` (so ahead/behind/clean annotations are never
classified gone), and the result lists exactly the names of the
gone-annotated records, with the current-branch `* ` marker stripped
before the name is extracted.  Without the commit-subject proviso the
statement is refuted by `vvBadLine`. -/
theorem parseGoneBranches_classifies (rs : List VvLine)
    (h : ∀ r ∈ rs, WellFormedVv r) :
    parseGoneBranches (String.mk (renderVvOutput rs))
      = ((rs.filter (fun r => seqContains goneMark (bracketedAnn r))).map
          (fun r => String.mk r.name)) := by
  unfold parseGoneBranches
  rw [show (String.mk (renderVvOutput rs)).toList = renderVvOutput rs from rfl]
  rw [parseGoneBranchesL_renders rs h]
  simp [List.map_map, Function.comp]

/-- Witness for the amended C1 at the specification's own example:
`"* a 1 [origin/a: gone] x"` and `"  b 1 [origin/b: ahead 1] y"`
classify to exactly `{a}`. -/
theorem parseGoneBranches_classifies_witness :
    parseGoneBranches "* a 1 [origin/a: gone] x\n  b 1 [origin/b: ahead 1] y" = ["a"] := by
  have h := parseGoneBranches_classifies
    [⟨true, ['a'], ['1'],
        ['o', 'r', 'i', 'g', 'i', 'n', '/', 'a', ':', ' ', 'g', 'o', 'n', 'e'], ['x']⟩,
     ⟨false, ['b'], ['1'],
        ['o', 'r', 'i', 'g', 'i', 'n', '/', 'b', ':', ' ', 'a', 'h', 'e', 'a', 'd', ' ', '1'],
        ['y']⟩]
    (by decide)
  simpa using h

end GitSweepPro
